import Mathlib

/-!
Shallow embedding of the trello-report-mcp report pipeline.

The embedding translates, definition by definition, the TypeScript sources:
  * `src/trello/utils.ts`   — period resolution, activity aggregation, groupings,
    rankings and the summary renderer;
  * `src/trello/types.ts`   — the data model;
  * the report tool (`generateReport` and its markdown renderer) and the API
    client's `findBoardByName`.

Modelling conventions:
  * JavaScript `Map` objects become association lists (`List (String × α)`)
    with first-occurrence lookup (`mapGet`) and in-place replacement /
    append-on-miss insertion (`mapSet`), which coincides with `Map`
    insertion-order semantics because every map built here has pairwise
    distinct keys.
  * JavaScript truthiness of the optional strings and numbers that the code
    branches on is modelled explicitly: `undefined` becomes `none`, and the
    falsy values `""` and `0` are treated exactly as the code treats them.
  * `Date` values are modelled by calendar triples (year, 0-based month,
    1-based day); the time-of-day components set by `startOfYear`/`endOfYear`
    are irrelevant to every claim and are dropped.  An "Invalid Date" range
    (produced when the period kind is neither a quarter key nor "year") is
    modelled by `Option.none` on the resolver's result.
  * Thrown `Error`s become `Except.error` carrying the exact message string.
  * `async` network calls of the API client become functions supplied by a
    `TrelloEnv` environment, returning `Except String _` so that upstream
    failures remain representable.
-/

namespace Trello

/-- ASCII lowering of a string; models `String.prototype.toLowerCase` on the
ASCII names the code compares (`Char.toLower` lowers exactly `A`–`Z`). -/
def lowerStr (s : String) : String :=
  ⟨s.data.map Char.toLower⟩

/-- Is the first character list a prefix of the second? (Helper for substring
containment.) -/
def prefixMatch : List Char → List Char → Bool
  | [], _ => true
  | _ :: _, [] => false
  | a :: as, b :: bs => a = b && prefixMatch as bs

/-- Does `needle` occur contiguously inside the haystack? -/
def substrMatch (needle : List Char) : List Char → Bool
  | [] => needle.isEmpty
  | b :: bs => prefixMatch needle (b :: bs) || substrMatch needle bs

/-- Models `s.includes(pat)` on JavaScript strings. -/
def strIncludes (s pat : String) : Bool :=
  substrMatch pat.data s.data

/-- JavaScript truthiness of an optional string: `undefined` and `""` are
falsy. -/
def jsTruthyS : Option String → Bool
  | none => false
  | some s => s ≠ ""

/-- JavaScript truthiness of an optional integer: `undefined` and `0` are
falsy. -/
def jsTruthyI : Option Int → Bool
  | none => false
  | some n => n ≠ 0

/-- Lookup in an insertion-ordered association list; models `Map.get` (and,
via `Option.isSome`, `Map.has`). -/
def mapGet {α : Type} : List (String × α) → String → Option α
  | [], _ => none
  | p :: rest, k => if p.1 = k then some p.2 else mapGet rest k

/-- Insertion into an insertion-ordered association list; models `Map.set`:
an existing key keeps its position and gets the new value, a new key is
appended at the end. -/
def mapSet {α : Type} : List (String × α) → String → α → List (String × α)
  | [], k, v => [(k, v)]
  | p :: rest, k, v => if p.1 = k then (k, v) :: rest else p :: mapSet rest k v

/-- Insertion into a `Set<string>` modelled as a duplicate-free list. -/
def setAdd (s : List String) (x : String) : List String :=
  if x ∈ s then s else s ++ [x]

/-! ### Calendar model (`Date`, date-fns helpers)

`new Date(year, month, day)` with a 0-based month; only the calendar day
matters for the claims, so hours/minutes/seconds are dropped. -/

/-- A JavaScript `Date`, reduced to its calendar components. `month` is
0-based as in the `Date` constructor, `day` is 1-based. -/
structure JsDate where
  year : Int
  month : Nat
  day : Nat
deriving DecidableEq, Repr

/-- Gregorian leap-year test. -/
def isLeapYear (y : Int) : Bool :=
  (y % 4 == 0 && y % 100 != 0) || y % 400 == 0

/-- Days in the (0-based) month `m` of year `y`. -/
def daysInMonth (y : Int) (m : Nat) : Nat :=
  if m = 1 then (if isLeapYear y then 29 else 28)
  else if m = 3 ∨ m = 5 ∨ m = 8 ∨ m = 10 then 30
  else 31

/-- date-fns `addMonths`: add `n` calendar months, clamping the day to the
length of the target month. -/
def addMonths (d : JsDate) (n : Nat) : JsDate :=
  let t := d.month + n
  let y := d.year + (t / 12 : Nat)
  let m := t % 12
  { year := y, month := m, day := min d.day (daysInMonth y m) }

/-- The previous calendar day. -/
def prevDay (d : JsDate) : JsDate :=
  if d.day > 1 then { d with day := d.day - 1 }
  else if d.month > 0 then
    { year := d.year, month := d.month - 1, day := daysInMonth d.year (d.month - 1) }
  else
    { year := d.year - 1, month := 11, day := 31 }

/-- date-fns `subDays`: step back `n` calendar days. -/
def subDays (d : JsDate) : Nat → JsDate
  | 0 => d
  | n + 1 => prevDay (subDays d n)

/-- `DateRange` from `types.ts`. The source field `end` is a Lean keyword and
is rendered `endDate`. -/
structure DateRange where
  start : JsDate
  endDate : JsDate
deriving DecidableEq, Repr

/-- `ReportPeriod` from `types.ts`. The TypeScript interface declares both
fields as required, but the validation code guards against their absence, so
the embedding keeps them optional; `none` models `undefined`. -/
structure ReportPeriod where
  type : Option String
  year : Option Int
deriving DecidableEq, Repr

/-- The quarter-to-start-month record of `getDateRangeForPeriod`
(`Q1 → 0, Q2 → 3, Q3 → 6, Q4 → 9`); `none` models an `undefined` lookup. -/
def quarterMap : String → Option Nat
  | "Q1" => some 0
  | "Q2" => some 3
  | "Q3" => some 6
  | "Q4" => some 9
  | _ => none

/-- `getDateRangeForPeriod` (`utils.ts` lines 23–48).

`currentYear` models `new Date().getFullYear()`.  The source computes
`year || currentYear`, so an absent (or zero) year silently falls back to the
current year — the function itself never throws.  For the year kind it
returns Jan 1 .. Dec 31; for a quarter it returns
`subDays(addMonths(start, 3), 0)` — note the `0`, faithfully kept — as the
range end.  A `none` result models the `{Invalid Date}` range produced when
`type` matches neither "year" nor a quarter key (the function still returns
an object in that case, not an error). -/
def getDateRangeForPeriod (period : ReportPeriod) (currentYear : Int) : Option DateRange :=
  let targetYear := if jsTruthyI period.year then period.year.getD 0 else currentYear
  if period.type = some "year" then
    some { start := ⟨targetYear, 0, 1⟩, endDate := ⟨targetYear, 11, 31⟩ }
  else
    match period.type.bind quarterMap with
    | none => none
    | some quarterStartMonth =>
      let start : JsDate := ⟨targetYear, quarterStartMonth, 1⟩
      let e := subDays (addMonths start 3) 0
      some { start := start, endDate := e }

/-- Zero-pad a numeral string to width `w`. -/
def padZero (s : String) (w : Nat) : String :=
  if s.length ≥ w then s else String.mk (List.replicate (w - s.length) '0') ++ s

/-- `formatDate` (`utils.ts` lines 53–55): date-fns format "yyyy-MM-dd". -/
def formatDate (d : JsDate) : String :=
  padZero (toString d.year) 4 ++ "-" ++ padZero (toString (d.month + 1)) 2 ++ "-" ++
    padZero (toString d.day) 2

/-- The quarter-name record of `getPeriodDescription`. -/
def quarterNames : String → Option String
  | "Q1" => some "First Quarter"
  | "Q2" => some "Second Quarter"
  | "Q3" => some "Third Quarter"
  | "Q4" => some "Fourth Quarter"
  | _ => none

/-- Renders an optional value the way a JavaScript template literal renders
`undefined`. -/
def showOptInt : Option Int → String
  | none => "undefined"
  | some n => toString n

/-- `getPeriodDescription` (`utils.ts` lines 60–75). -/
def getPeriodDescription (period : ReportPeriod) : String :=
  if period.type = some "year" then
    "Year " ++ showOptInt period.year
  else
    ((period.type.bind quarterNames).getD "undefined") ++ " " ++ showOptInt period.year

/-! ### Data model (`types.ts`)

Fields the pipeline never reads (`shortUrl`, `pos`, `badges`, `closed`,
`idBoard`, avatar and organization ids, the `memberCreator` echo inside an
action) are omitted: no claim and no embedded function depends on them. -/

/-- `TrelloBoard`. -/
structure TrelloBoard where
  id : String
  name : String
  desc : String
  url : String
  dateLastActivity : String
deriving DecidableEq, Repr

/-- `TrelloList`. -/
structure TrelloList where
  id : String
  name : String
deriving DecidableEq, Repr

/-- `TrelloCard`. -/
structure TrelloCard where
  id : String
  name : String
  desc : String
  idList : String
  idMembers : List String
  idLabels : List String
  due : Option String
  dueComplete : Bool
  url : String
deriving DecidableEq, Repr

/-- `TrelloMember`. -/
structure TrelloMember where
  id : String
  fullName : String
  username : String
deriving DecidableEq, Repr

/-- `TrelloLabel`. -/
structure TrelloLabel where
  id : String
  name : String
  color : String
deriving DecidableEq, Repr

/-- A check item of a `TrelloChecklist`. -/
structure TrelloCheckItem where
  id : String
  name : String
  state : String
deriving DecidableEq, Repr

/-- `TrelloChecklist`. -/
structure TrelloChecklist where
  id : String
  name : String
  idCard : String
  checkItems : List TrelloCheckItem
deriving DecidableEq, Repr

/-- A `{ id, name }` reference carried inside an action payload. -/
structure EntityRef where
  id : String
  name : String
deriving DecidableEq, Repr

/-- The loosely-typed `data` payload of a `TrelloAction`; absent fields are
`none`. -/
structure ActionData where
  list : Option EntityRef
  card : Option EntityRef
  listBefore : Option EntityRef
  listAfter : Option EntityRef
  text : Option String
deriving DecidableEq, Repr

/-- `TrelloAction`. -/
structure TrelloAction where
  id : String
  idMemberCreator : String
  type : String
  date : String
  data : ActionData
deriving DecidableEq, Repr

/-- `BoardActivity` from `types.ts`; the `Map` fields become insertion-ordered
association lists. -/
structure BoardActivity where
  cardsCreated : Nat
  cardsCompleted : Nat
  cardsMoved : Nat
  commentsAdded : Nat
  membersActive : List (String × Nat)
  listActivity : List (String × Nat)
  cardFlow : List (String × List (String × Nat))
  cardsByLabel : List (String × List TrelloCard)
  topCards : List TrelloCard
  completedCards : List TrelloCard
  inProgressCards : List TrelloCard
  cardChecklists : List (String × List TrelloChecklist)
deriving DecidableEq, Repr

/-- The fresh `activity` literal built at the start of
`calculateBoardActivity` (`utils.ts` lines 85–99). -/
def emptyActivity : BoardActivity :=
  { cardsCreated := 0
    cardsCompleted := 0
    cardsMoved := 0
    commentsAdded := 0
    membersActive := []
    listActivity := []
    cardFlow := []
    cardsByLabel := []
    topCards := []
    completedCards := []
    inProgressCards := []
    cardChecklists := [] }

/-! ### Activity aggregation (`utils.ts`) -/

/-- The seeding loop of `calculateBoardActivity` (`utils.ts` lines 102–113):
every fetched list gets a zero activity counter and a flow row mapping every
*other* fetched list id to zero. -/
def seedStep (lists : List TrelloList) (a : BoardActivity) (list : TrelloList) :
    BoardActivity :=
  let flowMap := lists.foldl
    (fun fm targetList =>
      if targetList.id ≠ list.id then mapSet fm targetList.id 0 else fm) []
  { a with
    listActivity := mapSet a.listActivity list.id 0
    cardFlow := mapSet a.cardFlow list.id flowMap }

/-- The seeding loop itself: one `seedStep` per fetched list. -/
def seedLists (lists : List TrelloList) (a : BoardActivity) : BoardActivity :=
  lists.foldl (seedStep lists) a

/-- One iteration of the action loop of `calculateBoardActivity`
(`utils.ts` lines 116–164): the acting member's tally is incremented
unconditionally, then the switch on `action.type` runs. -/
def processAction (a : BoardActivity) (action : TrelloAction) : BoardActivity :=
  let memberId := action.idMemberCreator
  let a := { a with
    membersActive :=
      mapSet a.membersActive memberId ((mapGet a.membersActive memberId).getD 0 + 1) }
  if action.type = "createCard" then
    let a := { a with cardsCreated := a.cardsCreated + 1 }
    match action.data.list with
    | some l =>
      { a with listActivity := mapSet a.listActivity l.id ((mapGet a.listActivity l.id).getD 0 + 1) }
    | none => a
  else if action.type = "updateCard" then
    match action.data.listBefore, action.data.listAfter with
    | some listBefore, some listAfter =>
      let a := { a with cardsMoved := a.cardsMoved + 1 }
      let sourceListId := listBefore.id
      let targetListId := listAfter.id
      let a := { a with
        listActivity :=
          mapSet a.listActivity sourceListId ((mapGet a.listActivity sourceListId).getD 0 + 1) }
      let a := { a with
        listActivity :=
          mapSet a.listActivity targetListId ((mapGet a.listActivity targetListId).getD 0 + 1) }
      match mapGet a.cardFlow sourceListId with
      | some flowMap =>
        { a with
          cardFlow :=
            mapSet a.cardFlow sourceListId
              (mapSet flowMap targetListId ((mapGet flowMap targetListId).getD 0 + 1)) }
      | none => a
    | _, _ => a
  else if action.type = "commentCard" then
    { a with commentsAdded := a.commentsAdded + 1 }
  else
    a

/-- `calculateBoardActivity` (`utils.ts` lines 80–167).  The `cards` argument
is accepted and, exactly as in the source, never used by the function body. -/
def calculateBoardActivity (lists : List TrelloList) (cards : List TrelloCard)
    (actions : List TrelloAction) : BoardActivity :=
  let _ := cards
  let activity := seedLists lists emptyActivity
  actions.foldl processAction activity

/-- `findMostActiveList` (`utils.ts` lines 183–200): a fold over the
insertion-ordered entries keeping the first entry whose count strictly
exceeds the running maximum (initially 0); a falsy winner id (`""`) makes
the function return `null`, mirroring `if (!mostActiveListId)`. -/
def findMostActiveList (activity : BoardActivity) (lists : List TrelloList) :
    Option TrelloList :=
  let r := activity.listActivity.foldl
    (fun (acc : Nat × Option String) e =>
      if e.2 > acc.1 then (e.2, some e.1) else acc) (0, none)
  match r.2 with
  | none => none
  | some listId =>
    if listId = "" then none
    else lists.find? (fun list => list.id = listId)

/-- `findMostActiveMembers` (`utils.ts` lines 205–216): the entries of
`membersActive`, stably sorted by descending count (`sort` with comparator
`b.count - a.count`), truncated to `limit`. -/
def findMostActiveMembers (activity : BoardActivity) (limit : Nat) :
    List (String × Nat) :=
  (activity.membersActive.mergeSort (fun x y => y.2 ≤ x.2)).take limit

/-- `groupCardsByLabel` (`utils.ts` lines 221–242). -/
def groupCardsByLabel (cards : List TrelloCard) (labels : List TrelloLabel) :
    List (String × List TrelloCard) :=
  let cardsByLabel := labels.foldl (fun m label => mapSet m label.id []) []
  cards.foldl
    (fun m card =>
      card.idLabels.foldl
        (fun m labelId => mapSet m labelId ((mapGet m labelId).getD [] ++ [card])) m)
    cardsByLabel

/-- The truthy card reference of an action: `action.data.card?.id` is used as
a condition, so a present card whose `id` is `""` (falsy) is skipped. -/
def actionCardId (action : TrelloAction) : Option String :=
  match action.data.card with
  | some c => if c.id = "" then none else some c.id
  | none => none

/-- The per-card action counts of `findTopCards` (`utils.ts` lines 253–259). -/
def countActionsPerCard (actions : List TrelloAction) : List (String × Nat) :=
  actions.foldl
    (fun m action =>
      match actionCardId action with
      | some cardId => mapSet m cardId ((mapGet m cardId).getD 0 + 1)
      | none => m)
    []

/-- `findTopCards` (`utils.ts` lines 247–271): keep the cards referenced by
at least one action, stably sort by descending action count, truncate. -/
def findTopCards (cards : List TrelloCard) (actions : List TrelloAction)
    (limit : Nat) : List TrelloCard :=
  let cardActionCounts := countActionsPerCard actions
  ((cards.filter (fun card => (mapGet cardActionCounts card.id).isSome)).mergeSort
      (fun a b => (mapGet cardActionCounts b.id).getD 0 ≤ (mapGet cardActionCounts a.id).getD 0)).take
    limit

/-- `findCompletedCards` (`utils.ts` lines 276–311), with the default
completion-list name set `["Done", "Completed", "Finished"]` passed
explicitly (the embedding has no default arguments). -/
def findCompletedCards (cards : List TrelloCard) (actions : List TrelloAction)
    (completionListNames : List String) : List TrelloCard :=
  let completionListIds := actions.foldl
    (fun (s : List String) action =>
      match action.data.listAfter with
      | some listAfter =>
        if action.type = "updateCard" ∧
            completionListNames.any
              (fun name => strIncludes (lowerStr listAfter.name) (lowerStr name)) then
          setAdd s listAfter.id
        else s
      | none => s)
    []
  let completedCardIds := actions.foldl
    (fun (s : List String) action =>
      match action.data.listAfter, actionCardId action with
      | some listAfter, some cardId =>
        if action.type = "updateCard" ∧ listAfter.id ∈ completionListIds then
          setAdd s cardId
        else s
      | _, _ => s)
    []
  cards.filter (fun card => card.id ∈ completedCardIds)

/-- The default completion-list names of `findCompletedCards`. -/
def defaultCompletionNames : List String := ["Done", "Completed", "Finished"]

/-- `findInProgressCards` (`utils.ts` lines 316–330), with the default
in-progress name set passed explicitly. -/
def findInProgressCards (cards : List TrelloCard) (lists : List TrelloList)
    (inProgressListNames : List String) : List TrelloCard :=
  let inProgressListIds :=
    (lists.filter (fun list =>
      inProgressListNames.any
        (fun name => strIncludes (lowerStr list.name) (lowerStr name)))).map
      (fun list => list.id)
  cards.filter (fun card => card.idList ∈ inProgressListIds)

/-- The default in-progress list names of `findInProgressCards`. -/
def defaultInProgressNames : List String :=
  ["In Progress", "Doing", "Working", "Current Sprint"]

/-! ### Renderers (`utils.ts` lines 335–524 and the report tool's markdown
renderer) -/

/-- `generateWorkSummary` (`utils.ts` lines 335–375). -/
def generateWorkSummary (completedCards : List TrelloCard) (labels : List TrelloLabel)
    (cardsByLabel : List (String × List TrelloCard)) : String :=
  if completedCards.length = 0 then
    "No work was completed during this period."
  else
    let summary :=
      "During this period, the team completed " ++ toString completedCards.length ++ " cards. "
    let labelSummaries := labels.foldl
      (fun (ls : List String) label =>
        let labelCards := (mapGet cardsByLabel label.id).getD []
        let completedLabelCards :=
          labelCards.filter (fun card => completedCards.any (fun c => c.id = card.id))
        if completedLabelCards.length > 0 ∧ label.name ≠ "" then
          ls ++ [toString completedLabelCards.length ++ " " ++ label.name ++ " items"]
        else ls)
      []
    let summary :=
      if labelSummaries.length > 0 then
        summary ++ "This included " ++ String.intercalate ", " labelSummaries ++ ". "
      else summary
    -- the source guards this block with `completedCards.length > 0`, which is
    -- always true on this branch
    summary ++ "Key completed items include: " ++
      String.intercalate ", "
        ((completedCards.take 3).map (fun card => "\"" ++ card.name ++ "\"")) ++ "."

/-- The recommendation line produced when no cards were completed
(`utils.ts` line 506). -/
def zeroCompletionLine : String :=
  "- Consider investigating why no cards were completed during this period.\n"

/-- The recommendation line produced when fewer than 3 cards were completed in
a non-year period (`utils.ts` line 508). -/
def lowCompletionLine : String :=
  "- The completion rate appears to be lower than optimal. Consider reviewing the workflow for potential bottlenecks.\n"

/-- The completion-based recommendation branch of `generateReportSummary`
(`utils.ts` lines 505–509): an `if`/`else if`, so at most one line. -/
def completionRecommendation (activity : BoardActivity) (period : ReportPeriod) :
    List String :=
  if activity.completedCards.length = 0 then [zeroCompletionLine]
  else if activity.completedCards.length < 3 ∧ period.type ≠ some "year" then
    [lowCompletionLine]
  else []

/-- The list-name recommendation branch of `generateReportSummary`
(`utils.ts` lines 512–521): fires only when a most-active list exists, and an
`if`/`else if` chain means at most one of the three lines appears. -/
def flowRecommendation (mostActiveList : Option TrelloList) : List String :=
  match mostActiveList with
  | none => []
  | some l =>
    let mostActiveListName := lowerStr l.name
    if strIncludes mostActiveListName "backlog" ∨ strIncludes mostActiveListName "todo" then
      ["- There\x27s significant activity in the \"" ++ l.name ++
        "\" list. Consider prioritizing these items to move them forward in the workflow.\n"]
    else if strIncludes mostActiveListName "progress" ∨
        strIncludes mostActiveListName "doing" then
      ["- Many cards are in \"" ++ l.name ++
        "\". Consider whether the team might be taking on too much work simultaneously.\n"]
    else if strIncludes mostActiveListName "review" ∨
        strIncludes mostActiveListName "validation" then
      ["- The \"" ++ l.name ++
        "\" list appears to be a potential bottleneck. Consider allocating more resources to review and validation.\n"]
    else []

/-- The lines appended after the `## Recommendations` header of the summary
report (`utils.ts` lines 502–521), in order: the completion-based branch,
then the list-name branch. -/
def recommendationLines (activity : BoardActivity) (period : ReportPeriod)
    (mostActiveList : Option TrelloList) : List String :=
  completionRecommendation activity period ++ flowRecommendation mostActiveList

/-- The truthy active-card id set built by both renderers
(`action.data.card?.id` collected over all actions). -/
def activeCardIdSet (actions : List TrelloAction) : List String :=
  actions.foldl
    (fun s action =>
      match actionCardId action with
      | some cardId => setAdd s cardId
      | none => s)
    []

/-- `name || alternative` on JavaScript strings: the empty string is falsy. -/
def orElseStr (s alternative : String) : String :=
  if s = "" then alternative else s

/-- `generateReportSummary` (`utils.ts` lines 380–524). -/
def generateReportSummary (board : TrelloBoard) (period : ReportPeriod)
    (dateRange : DateRange) (lists : List TrelloList) (cards : List TrelloCard)
    (members : List TrelloMember) (labels : List TrelloLabel)
    (actions : List TrelloAction) (activity : BoardActivity) : String :=
  let periodDesc := getPeriodDescription period
  let dateRangeStr := formatDate dateRange.start ++ " to " ++ formatDate dateRange.endDate
  let mostActiveList := findMostActiveList activity lists
  let activeCards := cards.filter (fun card => card.id ∈ activeCardIdSet actions)
  let summary := "# " ++ board.name ++ " - " ++ periodDesc ++ " Summary\n\n"
  let summary := summary ++ "## Overall Activity\n\n"
  let summary := summary ++ "During " ++ periodDesc ++ " (" ++ dateRangeStr ++
    "), the team recorded " ++ toString actions.length ++ " activities across " ++
    toString activeCards.length ++ " cards. "
  let summary := summary ++ "There were " ++ toString activity.cardsCreated ++
    " new cards created, " ++ toString activity.cardsMoved ++ " card movements, and " ++
    toString activity.commentsAdded ++ " comments added.\n\n"
  let summary :=
    if activity.membersActive.length > 0 then
      let mostActiveMembers := findMostActiveMembers activity 3
      if mostActiveMembers.length > 0 then
        let memberNames := mostActiveMembers.map (fun e =>
          match members.find? (fun m => m.id = e.1) with
          | some member => member.fullName
          | none => "Unknown Member")
        summary ++ "## Team Activity\n\n" ++ "The most active team members were: " ++
          String.intercalate ", " memberNames ++ ".\n\n"
      else summary
    else summary
  let workSummary := generateWorkSummary activity.completedCards labels activity.cardsByLabel
  let summary := summary ++ "## Work Completed\n\n" ++ workSummary ++ "\n\n"
  let summary :=
    if activity.topCards.length > 0 then
      let body := ((activity.topCards.take 3).enum.map (fun p =>
        let card := p.2
        let cardList := lists.find? (fun l => l.id = card.idList)
        let cardLabels := labels.filter (fun l => l.id ∈ card.idLabels)
        let labelText :=
          if cardLabels.length > 0 then
            " (" ++ String.intercalate ", "
              (cardLabels.map (fun l => orElseStr l.name l.color)) ++ ")"
          else ""
        let listName :=
          match cardList with
          | some cl => if cl.name = "" then "Unknown List" else cl.name
          | none => "Unknown List"
        toString (p.1 + 1) ++ ". **" ++ card.name ++ "**" ++ labelText ++ " - " ++
          listName ++ "\n")).foldl (· ++ ·) ""
      summary ++ "## Key Focus Areas\n\n" ++ "The team focused primarily on these items:\n\n" ++
        body ++ "\n"
    else summary
  let summary :=
    match mostActiveList with
    | some mal =>
      if activity.cardsMoved > 0 then
        let s1 := summary ++ "## Workflow Analysis\n\n" ++ "The most active list was \"" ++
          mal.name ++ "\", indicating this was a key stage in the workflow. "
        let listActivitySorted := activity.listActivity.mergeSort (fun x y => y.2 ≤ x.2)
        if listActivitySorted.length ≥ 2 then
          let secondMostActiveListId := (listActivitySorted.getD 1 ("", 0)).1
          match lists.find? (fun l => l.id = secondMostActiveListId) with
          | some secondMostActiveList =>
            s1 ++ "\"" ++ secondMostActiveList.name ++ "\" also saw significant activity.\n\n"
          | none => s1
        else s1
      else summary
    | none => summary
  let summary :=
    if activity.inProgressCards.length > 0 then
      let s1 := summary ++ "## Current Work\n\n" ++ "There " ++
        (if activity.inProgressCards.length = 1 then "is" else "are") ++ " currently " ++
        toString activity.inProgressCards.length ++ " " ++
        (if activity.inProgressCards.length = 1 then "card" else "cards") ++ " in progress. "
      let inProgressByList := lists.foldl
        (fun m list =>
          let listCards := activity.inProgressCards.filter (fun card => card.idList = list.id)
          if listCards.length > 0 then mapSet m list.id listCards else m)
        []
      if inProgressByList.length > 0 then
        let listSummaries := inProgressByList.foldl
          (fun (ls : List String) e =>
            match lists.find? (fun l => l.id = e.1) with
            | some list => ls ++ [toString e.2.length ++ " in \"" ++ list.name ++ "\""]
            | none => ls)
          []
        if listSummaries.length > 0 then
          s1 ++ "This includes " ++ String.intercalate ", " listSummaries ++ ".\n\n"
        else s1
      else s1
    else summary
  let summary := summary ++ "## Recommendations\n\n"
  summary ++ String.join (recommendationLines activity period mostActiveList)

/-! ### Operation façade (the report tool and the API client)

The API client's network calls, the wall clock and the locale renderer are
supplied by a `TrelloEnv` environment; each call returns `Except String _` so
upstream failures stay representable. -/

/-- The environment of effectful collaborators used by `generateReport`:
the API client's endpoints, `new Date().getFullYear()` (`currentYear`),
`toLocaleDateString` applied to a timestamp string (`localeDate`) and to the
current instant (`todayLocale`). -/
structure TrelloEnv where
  getBoards : Except String (List TrelloBoard)
  getBoard : String → Except String TrelloBoard
  getLists : String → Except String (List TrelloList)
  getCards : String → Except String (List TrelloCard)
  getMembers : String → Except String (List TrelloMember)
  getLabels : String → Except String (List TrelloLabel)
  getActions : String → DateRange → Except String (List TrelloAction)
  getCardChecklists : String → Except String (List TrelloChecklist)
  currentYear : Int
  localeDate : String → String
  todayLocale : String

/-- `findBoardByName` of the API client: fetch all boards, first
case-insensitive substring match on the name, or `null`. -/
def findBoardByName (env : TrelloEnv) (name : String) :
    Except String (Option TrelloBoard) := do
  let boards ← env.getBoards
  let normalizedName := lowerStr name
  pure (boards.find? (fun board => strIncludes (lowerStr board.name) normalizedName))

/-- `ReportOptions` from `types.ts`; every field the validation code guards
is optional. -/
structure ReportOptions where
  boardId : Option String
  boardName : Option String
  period : Option ReportPeriod
  format : Option String
deriving DecidableEq, Repr

/-- `ReportResult` from `types.ts`. -/
structure ReportResult where
  boardInfo : TrelloBoard
  period : ReportPeriod
  dateRange : DateRange
  lists : List TrelloList
  cards : List TrelloCard
  members : List TrelloMember
  labels : List TrelloLabel
  actions : List TrelloAction
  activity : BoardActivity
  markdown : String

set_option maxHeartbeats 1600000 in
/-- `generateMarkdownReport`, the full-format renderer of the report tool.
`env` supplies only the locale date renderings (`toLocaleDateString`) and the
generation-day stamp. -/
def generateMarkdownReport (env : TrelloEnv) (board : TrelloBoard)
    (period : ReportPeriod) (dateRange : DateRange) (lists : List TrelloList)
    (cards : List TrelloCard) (members : List TrelloMember)
    (labels : List TrelloLabel) (actions : List TrelloAction)
    (activity : BoardActivity) : String :=
  let periodDesc := getPeriodDescription period
  let dateRangeStr := formatDate dateRange.start ++ " to " ++ formatDate dateRange.endDate
  let activeCards := cards.filter (fun card => card.id ∈ activeCardIdSet actions)
  let mostActiveList := findMostActiveList activity lists
  let mostActiveMembers := findMostActiveMembers activity 5
  let cardsPerList := lists.foldl
    (fun m list =>
      mapSet m list.id (activeCards.filter (fun card => card.idList = list.id)).length)
    []
  let markdown := "# Trello Board Report: " ++ board.name ++ "\n\n"
  let markdown := markdown ++ "## Report Period: " ++ periodDesc ++ "\n\n"
  let markdown := markdown ++ "Date Range: " ++ dateRangeStr ++ "\n\n"
  let markdown := markdown ++ "## Board Overview\n\n"
  let markdown := markdown ++ "- **Board Name**: " ++ board.name ++ "\n"
  let markdown :=
    if board.desc ≠ "" then markdown ++ "- **Description**: " ++ board.desc ++ "\n"
    else markdown
  let markdown := markdown ++ "- **URL**: " ++ board.url ++ "\n"
  let markdown := markdown ++ "- **Last Activity**: " ++
    env.localeDate board.dateLastActivity ++ "\n"
  let markdown := markdown ++ "- **Lists**: " ++ toString lists.length ++ "\n"
  let markdown := markdown ++ "- **Cards**: " ++ toString cards.length ++ " total, " ++
    toString activeCards.length ++ " active in this period\n"
  let markdown := markdown ++ "- **Members**: " ++ toString members.length ++ "\n\n"
  let markdown := markdown ++ "## Activity Summary\n\n"
  let markdown := markdown ++ "- **Cards Created**: " ++ toString activity.cardsCreated ++ "\n"
  let markdown := markdown ++ "- **Cards Moved**: " ++ toString activity.cardsMoved ++ "\n"
  let markdown := markdown ++ "- **Comments Added**: " ++ toString activity.commentsAdded ++ "\n"
  let markdown :=
    match mostActiveList with
    | some l => markdown ++ "- **Most Active List**: " ++ l.name ++ "\n"
    | none => markdown
  let markdown := markdown ++ "\n"
  let markdown := markdown ++ "## List Breakdown\n\n" ++
    "| List Name | Cards | Activity |\n" ++ "|-----------|-------|----------|\n"
  let markdown := lists.foldl
    (fun md list =>
      let cardCount := (mapGet cardsPerList list.id).getD 0
      let activityCount := (mapGet activity.listActivity list.id).getD 0
      md ++ "| " ++ list.name ++ " | " ++ toString cardCount ++ " | " ++
        toString activityCount ++ " |\n")
    markdown
  let markdown := markdown ++ "\n"
  let markdown :=
    if members.length > 0 then
      let md := markdown ++ "## Member Activity\n\n" ++ "| Member | Activity |\n" ++
        "|--------|----------|\n"
      let md := mostActiveMembers.foldl
        (fun md e =>
          match members.find? (fun m => m.id = e.1) with
          | some member => md ++ "| " ++ member.fullName ++ " | " ++ toString e.2 ++ " |\n"
          | none => md)
        md
      md ++ "\n"
    else markdown
  let markdown :=
    if labels.length > 0 ∧ activeCards.length > 0 then
      let labelUsage := labels.foldl
        (fun (m : List (String × Nat)) label => mapSet m label.id 0) []
      let labelUsage := activeCards.foldl
        (fun m card =>
          card.idLabels.foldl
            (fun m labelId => mapSet m labelId ((mapGet m labelId).getD 0 + 1)) m)
        labelUsage
      let sortedLabels := labels.mergeSort
        (fun a b => (mapGet labelUsage b.id).getD 0 ≤ (mapGet labelUsage a.id).getD 0)
      let md := markdown ++ "## Label Usage\n\n" ++ "| Label | Color | Usage |\n" ++
        "|-------|-------|-------|\n"
      let md := sortedLabels.foldl
        (fun md label =>
          let usage := (mapGet labelUsage label.id).getD 0
          if usage > 0 then
            md ++ "| " ++ orElseStr label.name "(no name)" ++ " | " ++ label.color ++
              " | " ++ toString usage ++ " |\n"
          else md)
        md
      md ++ "\n"
    else markdown
  let markdown :=
    if activity.cardsMoved > 0 then
      let md := markdown ++ "## Card Flow\n\n" ++
        "This section shows how cards moved between lists during the period.\n\n"
      let listsWithMovements := activity.cardFlow.foldl
        (fun (acc : List TrelloList) e =>
          let hasMovements := e.2.any (fun cell => cell.2 > 0)
          if hasMovements then
            match lists.find? (fun l => l.id = e.1) with
            | some list => acc ++ [list]
            | none => acc
          else acc)
        []
      if listsWithMovements.length > 0 then
        listsWithMovements.foldl
          (fun md sourceList =>
            match mapGet activity.cardFlow sourceList.id with
            | none => md
            | some flowMap =>
              let totalOutflow := (flowMap.map (fun cell => cell.2)).sum
              if totalOutflow > 0 then
                let md := md ++ "### From \"" ++ sourceList.name ++ "\"\n\n"
                let md := flowMap.foldl
                  (fun md cell =>
                    if cell.2 > 0 then
                      match lists.find? (fun l => l.id = cell.1) with
                      | some targetList =>
                        md ++ "- **To \"" ++ targetList.name ++ "\"**: " ++
                          toString cell.2 ++ " cards\n"
                      | none => md
                    else md)
                  md
                md ++ "\n"
              else md)
          md
      else md ++ "No significant card flow detected in this period.\n\n"
    else markdown
  let markdown := markdown ++ "## Work Summary\n\n" ++
    generateWorkSummary activity.completedCards labels activity.cardsByLabel ++ "\n\n"
  let markdown :=
    if activity.completedCards.length > 0 then
      let md := markdown ++ "## Completed Features\n\n"
      let completedCardsByLabel := labels.foldl
        (fun m label =>
          if label.name = "" then m
          else
            let labelCards := (mapGet activity.cardsByLabel label.id).getD []
            let completedLabelCards := labelCards.filter
              (fun card => activity.completedCards.any (fun c => c.id = card.id))
            if completedLabelCards.length > 0 then mapSet m label.id completedLabelCards
            else m)
        []
      labels.foldl
        (fun md label =>
          let completedLabelCards := (mapGet completedCardsByLabel label.id).getD []
          if completedLabelCards.length > 0 ∧ label.name ≠ "" then
            let md := md ++ "### " ++ label.name ++ " (" ++
              toString completedLabelCards.length ++ ")\n\n"
            let md := completedLabelCards.foldl
              (fun md card =>
                let md := md ++ "- **" ++ card.name ++ "**"
                let md :=
                  if card.desc ≠ "" then
                    let shortDesc :=
                      if card.desc.length > 100 then card.desc.take 100 ++ "..."
                      else card.desc
                    md ++ ": " ++ shortDesc
                  else md
                md ++ " [View Card](" ++ card.url ++ ")\n")
              md
            md ++ "\n"
          else md)
        md
    else markdown
  let markdown :=
    if activity.topCards.length > 0 then
      let md := markdown ++ "## Key Cards\n\n" ++
        "These cards had the most activity during this period:\n\n"
      (activity.topCards.take 10).enum.foldl
        (fun md p =>
          let card := p.2
          let md := md ++ "### " ++ toString (p.1 + 1) ++ ". " ++ card.name ++ "\n\n"
          let listName :=
            match lists.find? (fun l => l.id = card.idList) with
            | some l => orElseStr l.name "Unknown"
            | none => "Unknown"
          let md := md ++ "- **List**: " ++ listName ++ "\n"
          let cardMembers := members.filter (fun m => m.id ∈ card.idMembers)
          let md :=
            if cardMembers.length > 0 then
              md ++ "- **Assigned to**: " ++
                String.intercalate ", " (cardMembers.map (fun m => m.fullName)) ++ "\n"
            else md
          let cardLabels := labels.filter (fun l => l.id ∈ card.idLabels)
          let md :=
            if cardLabels.length > 0 then
              md ++ "- **Labels**: " ++
                String.intercalate ", " (cardLabels.map (fun l => orElseStr l.name l.color)) ++
                "\n"
            else md
          let md :=
            if jsTruthyS card.due then
              md ++ "- **Due**: " ++ env.localeDate (card.due.getD "") ++ " " ++
                (if card.dueComplete then "(Completed)" else "") ++ "\n"
            else md
          let md :=
            if card.desc ≠ "" then
              md ++ "\n**Description**:\n\n" ++ card.desc ++ "\n\n"
            else md
          md ++ "[View Card on Trello](" ++ card.url ++ ")\n\n")
        md
    else markdown
  let markdown :=
    if activity.inProgressCards.length > 0 then
      let md := markdown ++ "## Work In Progress\n\n"
      let cardsByList := lists.foldl
        (fun m list =>
          let listCards := activity.inProgressCards.filter (fun card => card.idList = list.id)
          if listCards.length > 0 then mapSet m list.id listCards else m)
        []
      lists.foldl
        (fun md list =>
          let listCards := (mapGet cardsByList list.id).getD []
          if listCards.length > 0 then
            let md := md ++ "### " ++ list.name ++ " (" ++ toString listCards.length ++ ")\n\n"
            let md := listCards.foldl
              (fun md card =>
                let cardLabels := labels.filter (fun l => l.id ∈ card.idLabels)
                let labelText :=
                  if cardLabels.length > 0 then
                    " [" ++
                      String.intercalate ", " (cardLabels.map (fun l => orElseStr l.name l.color)) ++
                      "]"
                  else ""
                let md := md ++ "- **" ++ card.name ++ "**" ++ labelText
                let md :=
                  if jsTruthyS card.due then
                    md ++ " (Due: " ++ env.localeDate (card.due.getD "") ++ ")"
                  else md
                md ++ "\n")
              md
            md ++ "\n"
          else md)
        md
    else markdown
  let markdown := markdown ++ "## Summary\n\n"
  let markdown := markdown ++ "This report covers Trello board activity for " ++ board.name ++
    " during " ++ periodDesc ++ " (" ++ dateRangeStr ++ ").\n"
  let markdown := markdown ++ "Total activity: " ++ toString actions.length ++
    " actions recorded.\n\n"
  markdown ++ "*Report generated on " ++ env.todayLocale ++ "*\n"

/-- The message of the invalid-period validation error of `generateReport`. -/
def invalidPeriodMsg : String := "Invalid period specified. Must include type and year."

/-- The message of the invalid-format validation error of `generateReport`. -/
def invalidFormatMsg : String :=
  "Invalid format specified. Must be \x27summary\x27 or \x27full\x27."

/-- The message of the missing-board-reference validation error of
`generateReport`. -/
def missingBoardMsg : String := "Either boardId or boardName must be provided."

/-- The message of the board-not-found error of `generateReport`. -/
def boardNotFoundMsg (name : String) : String :=
  "Board with name \"" ++ name ++ "\" not found."

/-- `generateReport`, the report tool.  Mirrors the source order: period
validation, format validation (with destructuring default `"full"`), board
resolution (name search only when `boardId` is falsy and `boardName`
truthy), the missing-board-reference guard, period resolution, the six
fetches, aggregation, the four card-metric assignments, the checklist loop
(failures skipped per card), and rendering.  The `"Invalid time value"`
arm models the `RangeError` thrown by `dateRange.start.toISOString()` inside
`getActions` when the period type is no known kind (unreachable through the
RPC layer, whose schema restricts the type to the five kinds). -/
def generateReport (env : TrelloEnv) (options : ReportOptions) :
    Except String ReportResult := do
  let format := options.format.getD "full"
  match options.period with
  | none => throw invalidPeriodMsg
  | some period =>
    if ¬ (jsTruthyS period.type ∧ jsTruthyI period.year) then
      throw invalidPeriodMsg
    else if format ≠ "summary" ∧ format ≠ "full" then
      throw invalidFormatMsg
    else do
      let targetBoardId ←
        if ¬ jsTruthyS options.boardId ∧ jsTruthyS options.boardName then do
          match ← findBoardByName env (options.boardName.getD "") with
          | none => throw (boardNotFoundMsg (options.boardName.getD ""))
          | some board => pure (some board.id)
        else
          pure options.boardId
      if ¬ jsTruthyS targetBoardId then
        throw missingBoardMsg
      else
        match getDateRangeForPeriod period env.currentYear with
        | none => throw "Invalid time value"
        | some dateRange => do
          let tbid := targetBoardId.getD ""
          let boardInfo ← env.getBoard tbid
          let lists ← env.getLists tbid
          let cards ← env.getCards tbid
          let members ← env.getMembers tbid
          let labels ← env.getLabels tbid
          let actions ← env.getActions tbid dateRange
          let activity := calculateBoardActivity lists cards actions
          let activity := { activity with cardsByLabel := groupCardsByLabel cards labels }
          let activity := { activity with topCards := findTopCards cards actions 15 }
          let activity :=
            { activity with
              completedCards := findCompletedCards cards actions defaultCompletionNames }
          let activity :=
            { activity with
              inProgressCards := findInProgressCards cards lists defaultInProgressNames }
          let activity := (activity.topCards.take 15).foldl
            (fun act card =>
              match env.getCardChecklists card.id with
              | Except.ok checklists =>
                { act with cardChecklists := mapSet act.cardChecklists card.id checklists }
              | Except.error _ => act)
            activity
          let markdown :=
            if format = "summary" then
              generateReportSummary boardInfo period dateRange lists cards members labels
                actions activity
            else
              generateMarkdownReport env boardInfo period dateRange lists cards members labels
                actions activity
          pure
            { boardInfo := boardInfo
              period := period
              dateRange := dateRange
              lists := lists
              cards := cards
              members := members
              labels := labels
              actions := actions
              activity := activity
              markdown := markdown }

/-- `calculateBoardActivity` threaded through an explicit state holding the
three input collections next to the `activity` slot the call fills.  Each
statement of `utils.ts` lines 80–167 writes only the activity object: the
fresh literal of lines 85–99 (`emptyActivity`), the seeding loop of lines
102–113 and the action loop of lines 116–164; the input arrays are only
read. -/
structure CalcState where
  lists : List TrelloList
  cards : List TrelloCard
  actions : List TrelloAction
  activity : BoardActivity
deriving DecidableEq, Repr

/-- Statement-by-statement state-passing form of `calculateBoardActivity`:
the function body, with every read taken from the state and every write
landing in the state's `activity` field. -/
def calculateBoardActivityS (s : CalcState) : CalcState :=
  let s := { s with activity := emptyActivity }
  let s := { s with activity := seedLists s.lists s.activity }
  { s with activity := s.actions.foldl processAction s.activity }

/-! ### Map lemmas -/

/-- Reading back the key just written. -/
theorem mapGet_mapSet_self {α : Type} (m : List (String × α)) (k : String) (v : α) :
    mapGet (mapSet m k v) k = some v := by
  induction m with
  | nil => simp [mapSet, mapGet]
  | cons p rest ih =>
    by_cases h : p.1 = k
    · simp [mapSet, h, mapGet]
    · simp [mapSet, h, mapGet, ih]

/-- Writing one key leaves every other key unchanged. -/
theorem mapGet_mapSet_ne {α : Type} (m : List (String × α)) {k k' : String} (v : α)
    (h : k' ≠ k) : mapGet (mapSet m k v) k' = mapGet m k' := by
  induction m with
  | nil => simp [mapSet, mapGet, Ne.symm h]
  | cons p rest ih =>
    by_cases hp : p.1 = k
    · have hk : ¬ (k = k') := fun hh => h hh.symm
      have hpk : ¬ (p.1 = k') := fun hh => hk (hp.symm.trans hh)
      simp [mapSet, hp, mapGet, hk, hpk]
    · simp [mapSet, hp, mapGet, ih]

/-- Key presence after a write: the written key, or a previously present
key. -/
theorem isSome_mapGet_mapSet {α : Type} (m : List (String × α)) (k k' : String) (v : α) :
    (mapGet (mapSet m k v) k').isSome ↔ k' = k ∨ (mapGet m k').isSome := by
  by_cases h : k' = k
  · subst h; simp [mapGet_mapSet_self]
  · simp [mapGet_mapSet_ne m v h, h]

/-- Writing an already-present key preserves the key sequence. -/
theorem keys_mapSet_of_isSome {α : Type} (m : List (String × α)) (k : String) (v : α)
    (h : (mapGet m k).isSome) :
    (mapSet m k v).map Prod.fst = m.map Prod.fst := by
  induction m with
  | nil => simp [mapGet] at h
  | cons p rest ih =>
    by_cases hp : p.1 = k
    · simp [mapSet, hp]
    · simp [mapGet, hp] at h
      simp [mapSet, hp, ih h]

/-- Key presence is key-sequence membership. -/
theorem isSome_mapGet_iff_mem_keys {α : Type} (m : List (String × α)) (k : String) :
    (mapGet m k).isSome ↔ k ∈ m.map Prod.fst := by
  induction m with
  | nil => simp [mapGet]
  | cons p rest ih =>
    by_cases hp : p.1 = k
    · simp [mapGet, hp]
    · simp [mapGet, hp, ih, Ne.symm hp]

/-- Every entry of `mapSet m k v` is the written pair or an entry of `m`. -/
theorem mem_mapSet {α : Type} {m : List (String × α)} {k : String} {v : α}
    {p : String × α} (h : p ∈ mapSet m k v) : p = (k, v) ∨ p ∈ m := by
  induction m with
  | nil => simp [mapSet] at h; simp [h]
  | cons q rest ih =>
    by_cases hq : q.1 = k
    · simp [mapSet, hq] at h
      rcases h with h | h
      · exact Or.inl h
      · exact Or.inr (List.mem_cons_of_mem q h)
    · simp [mapSet, hq] at h
      rcases h with h | h
      · exact Or.inr (by simp [h])
      · rcases ih h with h' | h'
        · exact Or.inl h'
        · exact Or.inr (List.mem_cons_of_mem q h')

/-- The sum of the values of a counter map. -/
def sumVals (m : List (String × Nat)) : Nat :=
  (m.map Prod.snd).sum

/-- The sum over all cells of a flow table. -/
def flowTotal (cf : List (String × List (String × Nat))) : Nat :=
  (cf.map (fun e => sumVals e.2)).sum

/-- Incrementing one counter cell raises the value sum by one. -/
theorem sumVals_mapSet_incr (m : List (String × Nat)) (k : String) :
    sumVals (mapSet m k ((mapGet m k).getD 0 + 1)) = sumVals m + 1 := by
  induction m with
  | nil => simp [mapSet, mapGet, sumVals]
  | cons p rest ih =>
    by_cases hp : p.1 = k
    · simp [mapSet, mapGet, hp, sumVals]
      omega
    · simp [mapSet, mapGet, hp, sumVals] at ih ⊢
      omega

/-- Replacing a present row by one whose sum is larger by one raises the
table total by one. -/
theorem flowTotal_mapSet {cf : List (String × List (String × Nat))} {k : String}
    {fm fm' : List (String × Nat)} (h : mapGet cf k = some fm)
    (h2 : sumVals fm' = sumVals fm + 1) :
    flowTotal (mapSet cf k fm') = flowTotal cf + 1 := by
  induction cf with
  | nil => simp [mapGet] at h
  | cons e rest ih =>
    by_cases he : e.1 = k
    · simp [mapGet, he] at h
      simp [mapSet, he, flowTotal, h2, h]
      omega
    · simp [mapGet, he] at h
      simp [mapSet, he, flowTotal] at ih ⊢
      have := ih h
      omega

/-! ### Step lemmas for the action loop -/

/-- A list-transition action: `updateCard` carrying both a before-list and an
after-list reference. -/
def isMoveAction (act : TrelloAction) : Bool :=
  act.type = "updateCard" && act.data.listBefore.isSome && act.data.listAfter.isSome

/-- The source list id of a transition (`""` when there is none). -/
def moveSourceId (act : TrelloAction) : String :=
  match act.data.listBefore with
  | some listBefore => listBefore.id
  | none => ""

/-- The target list id of a transition (`""` when there is none). -/
def moveTargetId (act : TrelloAction) : String :=
  match act.data.listAfter with
  | some listAfter => listAfter.id
  | none => ""

/-- Processing one action never changes the key sequence of the flow table:
the table is only written at a key it already contains. -/
theorem processAction_cardFlow_keys (a : BoardActivity) (act : TrelloAction) :
    (processAction a act).cardFlow.map Prod.fst = a.cardFlow.map Prod.fst := by
  by_cases h1 : act.type = "createCard"
  · cases h : act.data.list <;> simp [processAction, h1, h]
  · by_cases h2 : act.type = "updateCard"
    · cases hb : act.data.listBefore with
      | none => cases ha : act.data.listAfter <;> simp [processAction, h1, h2, hb, ha]
      | some lb =>
        cases ha : act.data.listAfter with
        | none => simp [processAction, h1, h2, hb, ha]
        | some la =>
          have hne : ¬ ("updateCard" : String) = "createCard" := by decide
          simp only [processAction, h1, h2, hb, ha, hne, if_false, if_true, ite_false,
            ite_true]
          cases hf : mapGet a.cardFlow lb.id with
          | none => simp [hf]
          | some fm =>
            simp only [hf]
            exact keys_mapSet_of_isSome _ _ _ (by simp [hf])
    · by_cases h3 : act.type = "commentCard" <;> simp [processAction, h1, h2, h3]

/-- Processing one action raises the flow-table total by one exactly when the
action is a transition whose source id is a key of the table. -/
theorem processAction_flowTotal (a : BoardActivity) (act : TrelloAction) :
    flowTotal (processAction a act).cardFlow =
      flowTotal a.cardFlow +
        (if isMoveAction act ∧ (mapGet a.cardFlow (moveSourceId act)).isSome then 1 else 0) := by
  by_cases h1 : act.type = "createCard"
  · have hmv : isMoveAction act = false := by
      simp [isMoveAction, h1]
    cases h : act.data.list <;> simp [processAction, h1, h, hmv]
  · by_cases h2 : act.type = "updateCard"
    · cases hb : act.data.listBefore with
      | none =>
        have hmv : isMoveAction act = false := by simp [isMoveAction, hb]
        cases ha : act.data.listAfter <;> simp [processAction, h1, h2, hb, ha, hmv]
      | some lb =>
        cases ha : act.data.listAfter with
        | none =>
          have hmv : isMoveAction act = false := by simp [isMoveAction, ha]
          simp [processAction, h1, h2, hb, ha, hmv]
        | some la =>
          have hmv : isMoveAction act = true := by simp [isMoveAction, h2, hb, ha]
          have hsrc : moveSourceId act = lb.id := by simp [moveSourceId, hb]
          have hne : ¬ ("updateCard" : String) = "createCard" := by decide
          simp only [processAction, h1, h2, hb, ha, hne, if_false, if_true, ite_false,
            ite_true]
          cases hf : mapGet a.cardFlow lb.id with
          | none => simp [hf, hmv, hsrc]
          | some fm =>
            simp only [hf, hmv, hsrc]
            rw [flowTotal_mapSet hf (sumVals_mapSet_incr fm la.id)]
            simp
    · have hmv : isMoveAction act = false := by simp [isMoveAction, h2]
      by_cases h3 : act.type = "commentCard" <;> simp [processAction, h1, h2, h3, hmv]

/-- Processing one action raises the moved-card count by one exactly when the
action is a transition. -/
theorem processAction_cardsMoved (a : BoardActivity) (act : TrelloAction) :
    (processAction a act).cardsMoved =
      a.cardsMoved + (if isMoveAction act then 1 else 0) := by
  by_cases h1 : act.type = "createCard"
  · have hmv : isMoveAction act = false := by simp [isMoveAction, h1]
    cases h : act.data.list <;> simp [processAction, h1, h, hmv]
  · by_cases h2 : act.type = "updateCard"
    · cases hb : act.data.listBefore with
      | none =>
        have hmv : isMoveAction act = false := by simp [isMoveAction, hb]
        cases ha : act.data.listAfter <;> simp [processAction, h1, h2, hb, ha, hmv]
      | some lb =>
        cases ha : act.data.listAfter with
        | none =>
          have hmv : isMoveAction act = false := by simp [isMoveAction, ha]
          simp [processAction, h1, h2, hb, ha, hmv]
        | some la =>
          have hmv : isMoveAction act = true := by simp [isMoveAction, h2, hb, ha]
          have hne : ¬ ("updateCard" : String) = "createCard" := by decide
          simp only [processAction, h1, h2, hb, ha, hne, if_false, if_true, ite_false,
            ite_true]
          cases hf : mapGet a.cardFlow lb.id <;> simp [hf, hmv]
    · have hmv : isMoveAction act = false := by simp [isMoveAction, h2]
      by_cases h3 : act.type = "commentCard" <;> simp [processAction, h1, h2, h3, hmv]

/-! ### Seeding lemmas -/

/-- All counter values of a map are zero. -/
def allZeroVals (m : List (String × Nat)) : Prop :=
  ∀ p ∈ m, p.2 = 0

/-- Writing a zero preserves all-zero values. -/
theorem allZeroVals_mapSet {m : List (String × Nat)} (h : allZeroVals m) (k : String) :
    allZeroVals (mapSet m k 0) := by
  intro p hp
  rcases mem_mapSet hp with h' | h'
  · simp [h']
  · exact h p h'

/-- The value sum of an all-zero map is zero. -/
theorem sumVals_eq_zero {m : List (String × Nat)} (h : allZeroVals m) : sumVals m = 0 := by
  refine List.sum_eq_zero ?_
  intro x hx
  rcases List.mem_map.mp hx with ⟨p, hp, rfl⟩
  exact h p hp

/-- The seeded flow row of a list has only zero cells. -/
theorem allZeroVals_seedRow (xs : List TrelloList) (lid : String)
    {fm : List (String × Nat)} (h : allZeroVals fm) :
    allZeroVals
      (xs.foldl (fun fm t => if t.id ≠ lid then mapSet fm t.id 0 else fm) fm) := by
  induction xs generalizing fm with
  | nil => exact h
  | cons t rest ih =>
    rw [List.foldl_cons]
    by_cases ht : t.id ≠ lid
    · simpa [ht] using ih (allZeroVals_mapSet h t.id)
    · simpa [ht] using ih h

/-- Every row of a flow table has only zero cells. -/
def allZeroFlow (cf : List (String × List (String × Nat))) : Prop :=
  ∀ e ∈ cf, allZeroVals e.2

/-- The total of an all-zero flow table is zero. -/
theorem flowTotal_eq_zero {cf : List (String × List (String × Nat))}
    (h : allZeroFlow cf) : flowTotal cf = 0 := by
  refine List.sum_eq_zero ?_
  intro x hx
  rcases List.mem_map.mp hx with ⟨e, he, rfl⟩
  exact sumVals_eq_zero (h e he)

/-- Seeding preserves an all-zero flow table. -/
theorem allZeroFlow_seedLists (lists xs : List TrelloList) {a : BoardActivity}
    (h : allZeroFlow a.cardFlow) :
    allZeroFlow (xs.foldl (seedStep lists) a).cardFlow := by
  induction xs generalizing a with
  | nil => exact h
  | cons l rest ih =>
    rw [List.foldl_cons]
    refine ih ?_
    intro e he
    rcases mem_mapSet he with h' | h'
    · subst h'
      exact allZeroVals_seedRow lists l.id (by intro p hp; simp at hp)
    · exact h e h'

/-- After seeding, the flow table has a row exactly for each fetched list id
(plus whatever keys were already present). -/
theorem seed_cardFlow_keys (lists xs : List TrelloList) (a : BoardActivity) (k : String) :
    (mapGet (xs.foldl (seedStep lists) a).cardFlow k).isSome ↔
      (mapGet a.cardFlow k).isSome ∨ k ∈ xs.map TrelloList.id := by
  induction xs generalizing a with
  | nil => simp
  | cons l rest ih =>
    rw [List.foldl_cons]
    rw [ih]
    have : (mapGet (seedStep lists a l).cardFlow k).isSome ↔
        k = l.id ∨ (mapGet a.cardFlow k).isSome := by
      simp [seedStep, isSome_mapGet_mapSet]
    rw [this]
    simp
    tauto

/-- After seeding, the per-list activity map has a key exactly for each
fetched list id (plus whatever keys were already present). -/
theorem seed_listActivity_keys (lists xs : List TrelloList) (a : BoardActivity)
    (k : String) :
    (mapGet (xs.foldl (seedStep lists) a).listActivity k).isSome ↔
      (mapGet a.listActivity k).isSome ∨ k ∈ xs.map TrelloList.id := by
  induction xs generalizing a with
  | nil => simp
  | cons l rest ih =>
    rw [List.foldl_cons]
    rw [ih]
    have : (mapGet (seedStep lists a l).listActivity k).isSome ↔
        k = l.id ∨ (mapGet a.listActivity k).isSome := by
      simp [seedStep, isSome_mapGet_mapSet]
    rw [this]
    simp
    tauto

/-- Seeding touches only `listActivity` and `cardFlow`. -/
theorem seedLists_frame (lists xs : List TrelloList) (a : BoardActivity) :
    (xs.foldl (seedStep lists) a).cardsCreated = a.cardsCreated ∧
    (xs.foldl (seedStep lists) a).cardsMoved = a.cardsMoved ∧
    (xs.foldl (seedStep lists) a).commentsAdded = a.commentsAdded ∧
    (xs.foldl (seedStep lists) a).membersActive = a.membersActive := by
  induction xs generalizing a with
  | nil => exact ⟨rfl, rfl, rfl, rfl⟩
  | cons l rest ih =>
    rw [List.foldl_cons]
    exact ih (seedStep lists a l)

/-! ### Fold lemmas for the action loop -/

/-- Key presence in a map depends only on its key sequence. -/
theorem isSome_mapGet_eq_of_keys_eq {α β : Type} {m1 : List (String × α)}
    {m2 : List (String × β)} (h : m1.map Prod.fst = m2.map Prod.fst) (k : String) :
    (mapGet m1 k).isSome = (mapGet m2 k).isSome := by
  induction m1 generalizing m2 with
  | nil =>
    cases m2 with
    | nil => rfl
    | cons q r2 => simp at h
  | cons p r1 ih =>
    cases m2 with
    | nil => simp at h
    | cons q r2 =>
      simp only [List.map_cons, List.cons.injEq] at h
      by_cases hp : p.1 = k
      · simp [mapGet, hp, h.1 ▸ hp]
      · have hq : ¬ q.1 = k := fun hh => hp (h.1.trans hh)
        simp [mapGet, hp, hq, ih h.2]

/-- The action loop never changes the key sequence of the flow table. -/
theorem foldl_processAction_cardFlow_keys (acts : List TrelloAction) (a : BoardActivity) :
    ((acts.foldl processAction a).cardFlow).map Prod.fst = a.cardFlow.map Prod.fst := by
  induction acts generalizing a with
  | nil => rfl
  | cons act rest ih =>
    rw [List.foldl_cons, ih, processAction_cardFlow_keys]

/-- Over the whole action loop, the flow-table total grows by one per
transition whose source id is a key of the (key-stable) table. -/
theorem foldl_processAction_flowTotal (acts : List TrelloAction) (a : BoardActivity) :
    flowTotal (acts.foldl processAction a).cardFlow =
      flowTotal a.cardFlow +
        acts.countP (fun act =>
          isMoveAction act && (mapGet a.cardFlow (moveSourceId act)).isSome) := by
  induction acts generalizing a with
  | nil => simp
  | cons act rest ih =>
    rw [List.foldl_cons, ih, processAction_flowTotal]
    have hcong :
        rest.countP (fun x =>
            isMoveAction x && (mapGet (processAction a act).cardFlow (moveSourceId x)).isSome) =
          rest.countP (fun x =>
            isMoveAction x && (mapGet a.cardFlow (moveSourceId x)).isSome) := by
      refine List.countP_congr ?_
      intro x _
      rw [isSome_mapGet_eq_of_keys_eq (processAction_cardFlow_keys a act) (moveSourceId x)]
    rw [hcong, List.countP_cons]
    by_cases hcond : isMoveAction act ∧ (mapGet a.cardFlow (moveSourceId act)).isSome
    · simp [hcond.1, hcond.2]
      omega
    · have : ¬ (isMoveAction act && (mapGet a.cardFlow (moveSourceId act)).isSome) = true := by
        simp only [Bool.and_eq_true]
        exact fun hh => hcond ⟨hh.1, hh.2⟩
      simp [hcond, this]

/-- Over the whole action loop, the moved-card count grows by one per
transition. -/
theorem foldl_processAction_cardsMoved (acts : List TrelloAction) (a : BoardActivity) :
    (acts.foldl processAction a).cardsMoved = a.cardsMoved + acts.countP isMoveAction := by
  induction acts generalizing a with
  | nil => simp
  | cons act rest ih =>
    rw [List.foldl_cons, ih, processAction_cardsMoved, List.countP_cons]
    by_cases h : isMoveAction act
    · simp [h]
      omega
    · simp [h]

/-! ### Self-edge lemmas -/

/-- The flow table has no nonzero diagonal cell. -/
def noSelfEdge (cf : List (String × List (String × Nat))) : Prop :=
  ∀ k fm n, mapGet cf k = some fm → mapGet fm k = some n → n = 0

/-- A successful lookup exhibits a member pair. -/
theorem mem_of_mapGet_eq_some {α : Type} {m : List (String × α)} {k : String} {v : α}
    (h : mapGet m k = some v) : (k, v) ∈ m := by
  induction m with
  | nil => simp [mapGet] at h
  | cons p rest ih =>
    by_cases hp : p.1 = k
    · simp [mapGet, hp] at h
      subst hp
      subst h
      exact List.mem_cons_self p rest
    · simp [mapGet, hp] at h
      exact List.mem_cons_of_mem p (ih h)

/-- An all-zero flow table trivially has no nonzero diagonal cell. -/
theorem noSelfEdge_of_allZeroFlow {cf : List (String × List (String × Nat))}
    (h : allZeroFlow cf) : noSelfEdge cf := by
  intro k fm n hk hn
  exact h (k, fm) (mem_of_mapGet_eq_some hk) (k, n) (mem_of_mapGet_eq_some hn)

/-- Processing a transition with distinct endpoints preserves the absence of
nonzero diagonal cells. -/
theorem processAction_noSelfEdge (a : BoardActivity) (act : TrelloAction)
    (hact : isMoveAction act = true → moveSourceId act ≠ moveTargetId act)
    (h : noSelfEdge a.cardFlow) : noSelfEdge (processAction a act).cardFlow := by
  by_cases h1 : act.type = "createCard"
  · cases hl : act.data.list <;> simpa [processAction, h1, hl] using h
  · by_cases h2 : act.type = "updateCard"
    · cases hb : act.data.listBefore with
      | none =>
        cases ha : act.data.listAfter <;> simpa [processAction, h1, h2, hb, ha] using h
      | some lb =>
        cases ha : act.data.listAfter with
        | none => simpa [processAction, h1, h2, hb, ha] using h
        | some la =>
          have hmv : isMoveAction act = true := by simp [isMoveAction, h2, hb, ha]
          have hne : ¬ ("updateCard" : String) = "createCard" := by decide
          have hst : lb.id ≠ la.id := by
            have := hact hmv
            simpa [moveSourceId, moveTargetId, hb, ha] using this
          simp only [processAction, h1, h2, hb, ha, hne, if_false, if_true, ite_false,
            ite_true]
          cases hf : mapGet a.cardFlow lb.id with
          | none => simpa [hf] using h
          | some fm =>
            simp only [hf]
            intro k fm' n hk hn
            by_cases hks : k = lb.id
            · subst hks
              rw [mapGet_mapSet_self] at hk
              cases hk
              rw [mapGet_mapSet_ne fm _ hst] at hn
              exact h lb.id fm n hf hn
            · rw [mapGet_mapSet_ne a.cardFlow _ hks] at hk
              exact h k fm' n hk hn
    · by_cases h3 : act.type = "commentCard" <;>
        simpa [processAction, h1, h2, h3] using h

/-- The whole action loop preserves the absence of nonzero diagonal cells as
long as every transition has distinct endpoints. -/
theorem foldl_processAction_noSelfEdge (acts : List TrelloAction) (a : BoardActivity)
    (hacts : ∀ act ∈ acts, isMoveAction act = true → moveSourceId act ≠ moveTargetId act)
    (h : noSelfEdge a.cardFlow) : noSelfEdge (acts.foldl processAction a).cardFlow := by
  induction acts generalizing a with
  | nil => exact h
  | cons act rest ih =>
    rw [List.foldl_cons]
    exact ih _ (fun x hx => hacts x (List.mem_cons_of_mem act hx))
      (processAction_noSelfEdge a act (hacts act (List.mem_cons_self act rest)) h)

/-! ### Key-set characterization lemmas -/

/-- The list ids an action contributes to `listActivity` during processing:
the created card's list for `createCard`, both transition endpoints for a
two-sided `updateCard`, nothing otherwise. -/
def actionListRefIds (act : TrelloAction) : List String :=
  if act.type = "createCard" then
    match act.data.list with
    | some l => [l.id]
    | none => []
  else if act.type = "updateCard" then
    match act.data.listBefore, act.data.listAfter with
    | some listBefore, some listAfter => [listBefore.id, listAfter.id]
    | _, _ => []
  else []

/-- Keys of `listActivity` after one action: the previous keys plus the
action's list references. -/
theorem processAction_listActivity_keys (a : BoardActivity) (act : TrelloAction)
    (k : String) :
    (mapGet (processAction a act).listActivity k).isSome ↔
      (mapGet a.listActivity k).isSome ∨ k ∈ actionListRefIds act := by
  by_cases h1 : act.type = "createCard"
  · cases hl : act.data.list with
    | none => simp [processAction, actionListRefIds, h1, hl]
    | some l =>
      simp [processAction, actionListRefIds, h1, hl, isSome_mapGet_mapSet]
      tauto
  · by_cases h2 : act.type = "updateCard"
    · cases hb : act.data.listBefore with
      | none =>
        cases ha : act.data.listAfter <;>
          simp [processAction, actionListRefIds, h1, h2, hb, ha]
      | some lb =>
        cases ha : act.data.listAfter with
        | none => simp [processAction, actionListRefIds, h1, h2, hb, ha]
        | some la =>
          have hne : ¬ ("updateCard" : String) = "createCard" := by decide
          simp only [processAction, actionListRefIds, h1, h2, hb, ha, hne, if_false,
            if_true, ite_false, ite_true]
          cases hf : mapGet a.cardFlow lb.id <;>
            · simp [hf, isSome_mapGet_mapSet]
              tauto
    · by_cases h3 : act.type = "commentCard" <;>
        simp [processAction, actionListRefIds, h1, h2, h3]

/-- Keys of `membersActive` after one action: the previous keys plus the
acting member. -/
theorem processAction_membersActive_keys (a : BoardActivity) (act : TrelloAction)
    (k : String) :
    (mapGet (processAction a act).membersActive k).isSome ↔
      (mapGet a.membersActive k).isSome ∨ k = act.idMemberCreator := by
  by_cases h1 : act.type = "createCard"
  · cases hl : act.data.list <;>
      · simp [processAction, h1, hl, isSome_mapGet_mapSet]
        tauto
  · by_cases h2 : act.type = "updateCard"
    · cases hb : act.data.listBefore with
      | none =>
        cases ha : act.data.listAfter <;>
          · simp [processAction, h1, h2, hb, ha, isSome_mapGet_mapSet]
            tauto
      | some lb =>
        cases ha : act.data.listAfter with
        | none =>
          simp [processAction, h1, h2, hb, ha, isSome_mapGet_mapSet]
          tauto
        | some la =>
          have hne : ¬ ("updateCard" : String) = "createCard" := by decide
          simp only [processAction, h1, h2, hb, ha, hne, if_false, if_true, ite_false,
            ite_true]
          cases hf : mapGet a.cardFlow lb.id <;>
            · simp [hf, isSome_mapGet_mapSet]
              tauto
    · by_cases h3 : act.type = "commentCard" <;>
        · simp [processAction, h1, h2, h3, isSome_mapGet_mapSet]
          tauto

/-- Keys of `listActivity` after the whole loop. -/
theorem foldl_processAction_listActivity_keys (acts : List TrelloAction)
    (a : BoardActivity) (k : String) :
    (mapGet ((acts.foldl processAction a).listActivity) k).isSome ↔
      (mapGet a.listActivity k).isSome ∨ ∃ act ∈ acts, k ∈ actionListRefIds act := by
  induction acts generalizing a with
  | nil => simp
  | cons act rest ih =>
    rw [List.foldl_cons, ih, processAction_listActivity_keys]
    simp only [List.mem_cons]
    constructor
    · rintro ((h | h) | ⟨x, hx, hk⟩)
      · exact Or.inl h
      · exact Or.inr ⟨act, Or.inl rfl, h⟩
      · exact Or.inr ⟨x, Or.inr hx, hk⟩
    · rintro (h | ⟨x, hx | hx, hk⟩)
      · exact Or.inl (Or.inl h)
      · exact Or.inl (Or.inr (hx ▸ hk))
      · exact Or.inr ⟨x, hx, hk⟩

/-- Keys of `membersActive` after the whole loop. -/
theorem foldl_processAction_membersActive_keys (acts : List TrelloAction)
    (a : BoardActivity) (k : String) :
    (mapGet ((acts.foldl processAction a).membersActive) k).isSome ↔
      (mapGet a.membersActive k).isSome ∨ ∃ act ∈ acts, k = act.idMemberCreator := by
  induction acts generalizing a with
  | nil => simp
  | cons act rest ih =>
    rw [List.foldl_cons, ih, processAction_membersActive_keys]
    simp only [List.mem_cons]
    constructor
    · rintro ((h | h) | ⟨x, hx, hk⟩)
      · exact Or.inl h
      · exact Or.inr ⟨act, Or.inl rfl, h⟩
      · exact Or.inr ⟨x, Or.inr hx, hk⟩
    · rintro (h | ⟨x, hx | hx, hk⟩)
      · exact Or.inl (Or.inl h)
      · exact Or.inl (Or.inr (hx ▸ hk))
      · exact Or.inr ⟨x, hx, hk⟩

/-- Keys of the label-seeded map. -/
theorem labelSeed_keys (labels : List TrelloLabel) (m : List (String × List TrelloCard))
    (k : String) :
    (mapGet (labels.foldl (fun m label => mapSet m label.id []) m) k).isSome ↔
      (mapGet m k).isSome ∨ k ∈ labels.map TrelloLabel.id := by
  induction labels generalizing m with
  | nil => simp
  | cons label rest ih =>
    rw [List.foldl_cons, ih]
    simp [isSome_mapGet_mapSet]
    tauto

/-- Keys after distributing one card over its label ids. -/
theorem cardLabels_fold_keys (card : TrelloCard) (ids : List String)
    (m : List (String × List TrelloCard)) (k : String) :
    (mapGet
        (ids.foldl
          (fun m labelId => mapSet m labelId ((mapGet m labelId).getD [] ++ [card])) m)
        k).isSome ↔
      (mapGet m k).isSome ∨ k ∈ ids := by
  induction ids generalizing m with
  | nil => simp
  | cons i rest ih =>
    rw [List.foldl_cons, ih]
    simp [isSome_mapGet_mapSet]
    tauto

/-- Keys after distributing all cards. -/
theorem groupCards_fold_keys (cards : List TrelloCard)
    (m : List (String × List TrelloCard)) (k : String) :
    (mapGet
        (cards.foldl
          (fun m card =>
            card.idLabels.foldl
              (fun m labelId => mapSet m labelId ((mapGet m labelId).getD [] ++ [card])) m)
          m)
        k).isSome ↔
      (mapGet m k).isSome ∨ ∃ c ∈ cards, k ∈ c.idLabels := by
  induction cards generalizing m with
  | nil => simp
  | cons card rest ih =>
    rw [List.foldl_cons, ih, cardLabels_fold_keys]
    simp only [List.mem_cons]
    constructor
    · rintro ((h | h) | ⟨x, hx, hk⟩)
      · exact Or.inl h
      · exact Or.inr ⟨card, Or.inl rfl, h⟩
      · exact Or.inr ⟨x, Or.inr hx, hk⟩
    · rintro (h | ⟨x, hx | hx, hk⟩)
      · exact Or.inl (Or.inl h)
      · exact Or.inl (Or.inr (hx ▸ hk))
      · exact Or.inr ⟨x, hx, hk⟩

/-! ### Sublist, key-uniqueness and grouping lemmas -/


theorem pair_sublist_or {α : Type} {a b : α} {l : List α} (ha : a ∈ l) (hb : b ∈ l)
    (hne : a ≠ b) : [a, b].Sublist l ∨ [b, a].Sublist l := by
  induction l with
  | nil => cases ha
  | cons x xs ih =>
    rcases List.mem_cons.mp ha with rfl | ha'
    · have hb' : b ∈ xs := by
        rcases List.mem_cons.mp hb with h | h
        · exact absurd h.symm hne
        · exact h
      exact Or.inl (List.Sublist.cons₂ _ (List.singleton_sublist.mpr hb'))
    · rcases List.mem_cons.mp hb with rfl | hb'
      · exact Or.inr (List.Sublist.cons₂ _ (List.singleton_sublist.mpr ha'))
      · rcases ih ha' hb' with h | h
        · exact Or.inl (List.Sublist.cons _ h)
        · exact Or.inr (List.Sublist.cons _ h)

theorem not_pair_sublist_swap {α : Type} {a b : α} {l : List α} (hnd : l.Nodup)
    (hne : a ≠ b) (h : [a, b].Sublist l) (h' : [b, a].Sublist l) : False := by
  induction l with
  | nil => simp at h
  | cons x xs ih =>
    have hx := (List.nodup_cons.mp hnd).1
    have hxs := (List.nodup_cons.mp hnd).2
    cases h with
    | cons _ h1 =>
      cases h' with
      | cons _ h2 => exact ih hxs h1 h2
      | cons₂ _ h2 => exact hx (List.Sublist.mem (by simp) h1)
    | cons₂ _ h1 =>
      cases h' with
      | cons _ h2 => exact hx (List.Sublist.mem (by simp) h2)
      | cons₂ _ h2 => exact hne rfl

theorem mapSet_of_not_isSome {α : Type} {m : List (String × α)} {k : String}
    (h : mapGet m k = none) (v : α) : mapSet m k v = m ++ [(k, v)] := by
  induction m with
  | nil => rfl
  | cons p rest ih =>
    by_cases hp : p.1 = k
    · simp [mapGet, hp] at h
    · simp [mapGet, hp] at h
      simp [mapSet, hp, ih h]

theorem nodupKeys_mapSet {α : Type} {m : List (String × α)}
    (h : (m.map Prod.fst).Nodup) (k : String) (v : α) :
    ((mapSet m k v).map Prod.fst).Nodup := by
  cases hg : mapGet m k with
  | some v0 =>
    rw [keys_mapSet_of_isSome m k v (by simp [hg])]
    exact h
  | none =>
    rw [mapSet_of_not_isSome hg v]
    rw [List.map_append]
    rw [List.nodup_append]
    refine ⟨h, by simp, ?_⟩
    intro x hx
    simp only [List.map_cons, List.map_nil, List.mem_singleton]
    intro hxk
    subst hxk
    have : (mapGet m x).isSome := (isSome_mapGet_iff_mem_keys m x).mpr hx
    rw [hg] at this
    simp at this

theorem mapGet_of_mem_nodupKeys {α : Type} {m : List (String × α)}
    (h : (m.map Prod.fst).Nodup) {e : String × α} (he : e ∈ m) :
    mapGet m e.1 = some e.2 := by
  induction m with
  | nil => cases he
  | cons p rest ih =>
    rw [List.map_cons, List.nodup_cons] at h
    rcases List.mem_cons.mp he with rfl | he'
    · simp [mapGet]
    · have hp : p.1 ≠ e.1 := by
        intro hcontra
        refine h.1 ?_
        rw [hcontra]
        exact List.mem_map.mpr ⟨e, he', rfl⟩
      simp [mapGet, hp, ih h.2 he']

theorem nodupKeys_labelSeed (labels : List TrelloLabel)
    (m : List (String × List TrelloCard)) (h : (m.map Prod.fst).Nodup) :
    (((labels.foldl (fun m label => mapSet m label.id []) m)).map Prod.fst).Nodup := by
  induction labels generalizing m with
  | nil => exact h
  | cons label rest ih =>
    rw [List.foldl_cons]
    exact ih _ (nodupKeys_mapSet h label.id [])

theorem nodupKeys_cardLabels_fold (card : TrelloCard) (ids : List String)
    (m : List (String × List TrelloCard)) (h : (m.map Prod.fst).Nodup) :
    ((ids.foldl
        (fun m labelId => mapSet m labelId ((mapGet m labelId).getD [] ++ [card]))
        m).map Prod.fst).Nodup := by
  induction ids generalizing m with
  | nil => exact h
  | cons i rest ih =>
    rw [List.foldl_cons]
    exact ih _ (nodupKeys_mapSet h i _)

theorem nodupKeys_groupCards_fold (cards : List TrelloCard)
    (m : List (String × List TrelloCard)) (h : (m.map Prod.fst).Nodup) :
    ((cards.foldl
        (fun m card =>
          card.idLabels.foldl
            (fun m labelId => mapSet m labelId ((mapGet m labelId).getD [] ++ [card])) m)
        m).map Prod.fst).Nodup := by
  induction cards generalizing m with
  | nil => exact h
  | cons card rest ih =>
    rw [List.foldl_cons]
    exact ih _ (nodupKeys_cardLabels_fold card card.idLabels m h)

theorem mem_inner_getD (card : TrelloCard) (ids : List String)
    (m : List (String × List TrelloCard)) (k : String) (c' : TrelloCard) :
    c' ∈
        (mapGet
          (ids.foldl
            (fun m labelId => mapSet m labelId ((mapGet m labelId).getD [] ++ [card])) m)
          k).getD [] ↔
      c' ∈ (mapGet m k).getD [] ∨ (k ∈ ids ∧ c' = card) := by
  induction ids generalizing m with
  | nil => simp
  | cons i rest ih =>
    rw [List.foldl_cons, ih]
    by_cases hk : k = i
    · subst hk
      rw [mapGet_mapSet_self]
      simp only [Option.getD_some, List.mem_append, List.mem_singleton, List.mem_cons]
      tauto
    · rw [mapGet_mapSet_ne m _ hk]
      simp only [List.mem_cons]
      constructor
      · rintro (h | ⟨hr, rfl⟩)
        · exact Or.inl h
        · exact Or.inr ⟨Or.inr hr, rfl⟩
      · rintro (h | ⟨hi | hr, rfl⟩)
        · exact Or.inl h
        · exact absurd hi hk
        · exact Or.inr ⟨hr, rfl⟩

theorem mem_outer_getD (cards : List TrelloCard)
    (m : List (String × List TrelloCard)) (k : String) (c' : TrelloCard) :
    c' ∈
        (mapGet
          (cards.foldl
            (fun m card =>
              card.idLabels.foldl
                (fun m labelId =>
                  mapSet m labelId ((mapGet m labelId).getD [] ++ [card])) m)
            m)
          k).getD [] ↔
      c' ∈ (mapGet m k).getD [] ∨ (c' ∈ cards ∧ k ∈ c'.idLabels) := by
  induction cards generalizing m with
  | nil => simp
  | cons card rest ih =>
    rw [List.foldl_cons, ih, mem_inner_getD]
    simp only [List.mem_cons]
    constructor
    · rintro ((h | ⟨hk, rfl⟩) | ⟨hmem, hk⟩)
      · exact Or.inl h
      · exact Or.inr ⟨Or.inl rfl, hk⟩
      · exact Or.inr ⟨Or.inr hmem, hk⟩
    · rintro (h | ⟨rfl | hmem, hk⟩)
      · exact Or.inl (Or.inl h)
      · exact Or.inl (Or.inr ⟨hk, rfl⟩)
      · exact Or.inr ⟨hmem, hk⟩

theorem labelSeed_vals_empty (labels : List TrelloLabel)
    {m : List (String × List TrelloCard)} (h : ∀ p ∈ m, p.2 = ([] : List TrelloCard)) :
    ∀ p ∈ labels.foldl (fun m label => mapSet m label.id []) m, p.2 = [] := by
  induction labels generalizing m with
  | nil => exact h
  | cons label rest ih =>
    rw [List.foldl_cons]
    refine ih ?_
    intro p hp
    rcases mem_mapSet hp with h' | h'
    · simp [h']
    · exact h p h'

theorem countP_keys_eq_length (keys ids : List String) (hk : keys.Nodup)
    (hi : ids.Nodup) (hcov : ∀ x ∈ ids, x ∈ keys) :
    keys.countP (fun k => decide (k ∈ ids)) = ids.length := by
  rw [List.countP_eq_length_filter]
  have hfn : (keys.filter (fun k => decide (k ∈ ids))).Nodup := hk.filter _
  have hset : (keys.filter (fun k => decide (k ∈ ids))).toFinset = ids.toFinset := by
    refine Finset.ext ?_
    intro x
    simp only [List.mem_toFinset, List.mem_filter, decide_eq_true_eq]
    exact ⟨fun h => h.2, fun h => ⟨hcov x h, h⟩⟩
  calc (keys.filter (fun k => decide (k ∈ ids))).length
      = (keys.filter (fun k => decide (k ∈ ids))).toFinset.card :=
        (List.toFinset_card_of_nodup hfn).symm
    _ = ids.toFinset.card := by rw [hset]
    _ = ids.length := List.toFinset_card_of_nodup hi

theorem mapGet_inner_not_mem (card : TrelloCard) (ids : List String)
    (m : List (String × List TrelloCard)) (k : String) (hk : k ∉ ids) :
    mapGet
        (ids.foldl
          (fun m labelId => mapSet m labelId ((mapGet m labelId).getD [] ++ [card])) m)
        k = mapGet m k := by
  induction ids generalizing m with
  | nil => rfl
  | cons i rest ih =>
    rw [List.foldl_cons, ih _ (fun h => hk (List.mem_cons_of_mem _ h))]
    exact mapGet_mapSet_ne m _ (fun h => hk (h ▸ List.mem_cons_self i rest))

theorem mapGet_outer_not_mem (cards : List TrelloCard)
    (m : List (String × List TrelloCard)) (k : String)
    (hk : ∀ c ∈ cards, k ∉ c.idLabels) :
    mapGet
        (cards.foldl
          (fun m card =>
            card.idLabels.foldl
              (fun m labelId => mapSet m labelId ((mapGet m labelId).getD [] ++ [card]))
              m)
          m)
        k = mapGet m k := by
  induction cards generalizing m with
  | nil => rfl
  | cons card rest ih =>
    rw [List.foldl_cons, ih _ (fun c hc => hk c (List.mem_cons_of_mem _ hc))]
    exact mapGet_inner_not_mem card _ m k (hk card (List.mem_cons_self card rest))

theorem labelSeed_not_mem (labels : List TrelloLabel)
    (m : List (String × List TrelloCard)) (k : String)
    (hk : k ∉ labels.map TrelloLabel.id) :
    mapGet (labels.foldl (fun m label => mapSet m label.id []) m) k = mapGet m k := by
  induction labels generalizing m with
  | nil => rfl
  | cons label rest ih =>
    rw [List.foldl_cons, ih _ (fun h => hk (by simp only [List.map_cons]; exact List.mem_cons_of_mem _ h))]
    exact mapGet_mapSet_ne m _
      (fun h => hk (by simp only [List.map_cons]; exact h ▸ List.mem_cons_self label.id _))

theorem labelSeed_value (labels : List TrelloLabel)
    (m : List (String × List TrelloCard)) (k : String)
    (hk : k ∈ labels.map TrelloLabel.id) :
    mapGet (labels.foldl (fun m label => mapSet m label.id []) m) k = some [] := by
  induction labels generalizing m with
  | nil => simp at hk
  | cons label rest ih =>
    rw [List.foldl_cons]
    by_cases hmem : k ∈ rest.map TrelloLabel.id
    · exact ih _ hmem
    · have hkl : k = label.id := by
        rw [List.map_cons, List.mem_cons] at hk
        tauto
      rw [labelSeed_not_mem rest _ k hmem, hkl]
      exact mapGet_mapSet_self m label.id []


/-! ### Concrete inputs used by counterexamples and witnesses -/

/-- A transition action whose source list id (`"ghost"`) is not a fetched
list. -/
def cexGhostMove : TrelloAction :=
  { id := "a1", idMemberCreator := "m1", type := "updateCard", date := "2023-01-02",
    data := { list := none, card := some ⟨"c1", "Card 1"⟩,
              listBefore := some ⟨"ghost", "Ghost"⟩, listAfter := some ⟨"b", "B"⟩,
              text := none } }

/-- A transition action whose before-list and after-list references are
equal. -/
def cexSelfMove : TrelloAction :=
  { id := "a2", idMemberCreator := "m1", type := "updateCard", date := "2023-01-02",
    data := { list := none, card := some ⟨"c1", "Card 1"⟩,
              listBefore := some ⟨"a", "List A"⟩, listAfter := some ⟨"a", "List A"⟩,
              text := none } }

/-- A `createCard` action whose payload list id (`"gx"`) and acting member id
(`"gm"`) occur only in the event. -/
def cexCreateGhost : TrelloAction :=
  { id := "a3", idMemberCreator := "gm", type := "createCard", date := "2023-01-02",
    data := { list := some ⟨"gx", "Ghost List"⟩, card := none, listBefore := none,
              listAfter := none, text := none } }

/-- A card whose only label id (`"gl"`) is not a fetched label. -/
def cexGhostLabelCard : TrelloCard :=
  { id := "c9", name := "Card 9", desc := "", idList := "a", idMembers := [],
    idLabels := ["gl"], due := none, dueComplete := false, url := "" }

/-- A `createCard` action landing in the fetched list `"l1"`. -/
def c3Action : TrelloAction :=
  { id := "a4", idMemberCreator := "m1", type := "createCard", date := "2023-01-02",
    data := { list := some ⟨"l1", "Backlog"⟩, card := none, listBefore := none,
              listAfter := none, text := none } }

/-- A single fetched list named "Backlog". -/
def c3Lists : List TrelloList := [⟨"l1", "Backlog"⟩]

/-- The aggregate the report pipeline builds for `c3Lists` and `c3Action`
(no cards, no labels): `calculateBoardActivity` followed by the tool's
`completedCards := findCompletedCards …` assignment. -/
def c3Activity : BoardActivity :=
  let base := calculateBoardActivity c3Lists [] [c3Action]
  { base with completedCards := findCompletedCards [] [c3Action] defaultCompletionNames }

/-- An environment with no boards and empty collections (clock year 2025). -/
def envNoBoards : TrelloEnv :=
  { getBoards := Except.ok []
    getBoard := fun _ => Except.error "Trello API error: not found"
    getLists := fun _ => Except.ok []
    getCards := fun _ => Except.ok []
    getMembers := fun _ => Except.ok []
    getLabels := fun _ => Except.ok []
    getActions := fun _ _ => Except.ok []
    getCardChecklists := fun _ => Except.ok []
    currentYear := 2025
    localeDate := fun _ => "1/2/2023"
    todayLocale := "1/2/2024" }

/-! ### The claims -/

/-- C1: the claim says every quarterly range of `getDateRangeForPeriod` ends
on the last day of the quarter (the day three calendar months after the
start minus one day) and the four ranges are contiguous and non-overlapping.
The code computes `subDays(addMonths(start, 3), 0)` — subtracting zero days —
although its own comment on that line reads "Last day of the quarter", so Q1
2023 is returned as Jan 1 .. **Apr 1** 2023 while Q2 2023 starts on Apr 1
2023: the ranges overlap and each end is one day past the claimed last day
(`subDays … 1` would give Mar 31). This theorem evaluates the embedded code
at the failing input. -/
theorem c1_quarter_range_code_bug :
    getDateRangeForPeriod ⟨some "Q1", some 2023⟩ 2026 =
        some { start := ⟨2023, 0, 1⟩, endDate := ⟨2023, 3, 1⟩ } ∧
    getDateRangeForPeriod ⟨some "Q2", some 2023⟩ 2026 =
        some { start := ⟨2023, 3, 1⟩, endDate := ⟨2023, 6, 1⟩ } ∧
    subDays (addMonths ⟨2023, 0, 1⟩ 3) 1 = ⟨2023, 2, 31⟩ := by
  decide

/-- C2 (counterexample): the claim says every identity keyed in
`listActivity`, `membersActive` and `cardsByLabel` exists in the fetched
lists, members and labels.  With empty fetched collections, a `createCard`
event whose payload names list `"gx"` and member `"gm"`, and a card whose
label set names `"gl"`, all three identities become aggregate keys. -/
theorem c2_counterexample :
    (mapGet (calculateBoardActivity [] [] [cexCreateGhost]).listActivity "gx").isSome =
        true ∧
    (mapGet (calculateBoardActivity [] [] [cexCreateGhost]).membersActive "gm").isSome =
        true ∧
    (mapGet (groupCardsByLabel [cexGhostLabelCard] []) "gl").isSome = true ∧
    "gx" ∉ ([] : List TrelloList).map TrelloList.id ∧
    "gm" ∉ ([] : List TrelloMember).map TrelloMember.id ∧
    "gl" ∉ ([] : List TrelloLabel).map TrelloLabel.id := by
  decide

/-- C2 (amended): the aggregate's key sets are exactly characterized — they
contain every fetched list id (respectively label id) but are not confined
to the fetched collections: `listActivity` keys are the fetched list ids
plus every list id occurring in a `createCard` payload or transition
endpoint, `membersActive` keys are exactly the acting-member ids of the
events (fetched members play no role), and `cardsByLabel` keys are the
fetched label ids plus every label id occurring in some card's label set. -/
theorem c2_aggregate_key_characterization (lists : List TrelloList)
    (cards : List TrelloCard) (labels : List TrelloLabel)
    (actions : List TrelloAction) :
    (∀ k, (mapGet (calculateBoardActivity lists cards actions).listActivity k).isSome ↔
        k ∈ lists.map TrelloList.id ∨ ∃ act ∈ actions, k ∈ actionListRefIds act) ∧
    (∀ k, (mapGet (calculateBoardActivity lists cards actions).membersActive k).isSome ↔
        ∃ act ∈ actions, k = act.idMemberCreator) ∧
    (∀ k, (mapGet (groupCardsByLabel cards labels) k).isSome ↔
        k ∈ labels.map TrelloLabel.id ∨ ∃ c ∈ cards, k ∈ c.idLabels) := by
  have hcalc : calculateBoardActivity lists cards actions =
      actions.foldl processAction (seedLists lists emptyActivity) := rfl
  have hseed : seedLists lists emptyActivity =
      lists.foldl (seedStep lists) emptyActivity := rfl
  refine ⟨?_, ?_, ?_⟩
  · intro k
    rw [hcalc, foldl_processAction_listActivity_keys, hseed, seed_listActivity_keys]
    simp [emptyActivity, mapGet]
  · intro k
    rw [hcalc, foldl_processAction_membersActive_keys, hseed,
      (seedLists_frame lists lists emptyActivity).2.2.2]
    simp [emptyActivity, mapGet]
  · intro k
    rw [groupCardsByLabel, groupCards_fold_keys, labelSeed_keys]
    simp [mapGet]

/-- C3 (counterexample): the claim says that with zero completed cards the
Recommendations section holds the zero-completion line and *no other*
heuristic line, whatever the most-active list's name.  On a board whose only
(and hence most active) list is named "Backlog", with no completed cards,
the section holds the zero-completion line *and* the backlog-prioritizing
line. -/
theorem c3_counterexample :
    c3Activity.completedCards = [] ∧
    recommendationLines c3Activity ⟨some "Q1", some (2023 : Int)⟩
        (findMostActiveList c3Activity c3Lists) =
      [zeroCompletionLine,
        "- There\x27s significant activity in the \"Backlog\" list. Consider prioritizing these items to move them forward in the workflow.\n"] := by
  decide

/-- C3 (amended): with zero completed cards the Recommendations section is
the zero-completion line followed by the list-name branch — so no other
*completion* heuristic line appears, but at most one list-name heuristic
line (determined by the most-active list's name) may follow it. -/
theorem c3_zero_completion_recommendations (activity : BoardActivity)
    (period : ReportPeriod) (mostActiveList : Option TrelloList)
    (h : activity.completedCards = []) :
    recommendationLines activity period mostActiveList =
      zeroCompletionLine :: flowRecommendation mostActiveList ∧
    (flowRecommendation mostActiveList).length ≤ 1 := by
  constructor
  · simp [recommendationLines, completionRecommendation, h]
  · cases mostActiveList with
    | none => simp [flowRecommendation]
    | some l =>
      simp only [flowRecommendation]
      split_ifs <;> simp

/-- Witness for C3's amended theorem: the aggregate with no completed cards
(`emptyActivity`) and a "Backlog" most-active list. -/
theorem c3_zero_completion_recommendations_witness :
    recommendationLines emptyActivity ⟨some "Q1", some (2023 : Int)⟩
        (some ⟨"l1", "Backlog"⟩) =
      zeroCompletionLine :: flowRecommendation (some ⟨"l1", "Backlog"⟩) ∧
    (flowRecommendation (some ⟨"l1", "Backlog"⟩)).length ≤ 1 :=
  c3_zero_completion_recommendations emptyActivity ⟨some "Q1", some (2023 : Int)⟩
    (some ⟨"l1", "Backlog"⟩) (by decide)

/-- C4 (counterexample): the claim says the sum over all `cardFlow` cells
equals `cardsMoved` *including* when a move's source list id is not fetched.
A single transition from the unfetched list `"ghost"` gives `cardsMoved = 1`
but an empty flow table (sum 0). -/
theorem c4_counterexample :
    (calculateBoardActivity [] [] [cexGhostMove]).cardsMoved = 1 ∧
    flowTotal (calculateBoardActivity [] [] [cexGhostMove]).cardFlow = 0 := by
  decide

/-- C4 (amended): the sum over all `cardFlow` cells equals the number of
transition events whose *source list id is fetched*; `cardsMoved` counts all
transition events, so the cell sum never exceeds it and equals it exactly
when every transition's source is fetched. -/
theorem c4_flow_total_characterization (lists : List TrelloList)
    (cards : List TrelloCard) (actions : List TrelloAction) :
    flowTotal (calculateBoardActivity lists cards actions).cardFlow =
      actions.countP (fun act =>
        isMoveAction act && lists.any (fun l => l.id = moveSourceId act)) ∧
    (calculateBoardActivity lists cards actions).cardsMoved =
      actions.countP (fun act => isMoveAction act) ∧
    flowTotal (calculateBoardActivity lists cards actions).cardFlow ≤
      (calculateBoardActivity lists cards actions).cardsMoved := by
  have hcalc : calculateBoardActivity lists cards actions =
      actions.foldl processAction (seedLists lists emptyActivity) := rfl
  have hseed : seedLists lists emptyActivity =
      lists.foldl (seedStep lists) emptyActivity := rfl
  have hseedflow : flowTotal (seedLists lists emptyActivity).cardFlow = 0 := by
    rw [hseed]
    exact flowTotal_eq_zero
      (allZeroFlow_seedLists lists lists (by intro e he; simp [emptyActivity] at he))
  have hkeys : ∀ k, (mapGet (seedLists lists emptyActivity).cardFlow k).isSome ↔
      k ∈ lists.map TrelloList.id := by
    intro k
    rw [hseed, seed_cardFlow_keys]
    simp [emptyActivity, mapGet]
  have h1 : flowTotal (calculateBoardActivity lists cards actions).cardFlow =
      actions.countP (fun act =>
        isMoveAction act &&
          (mapGet (seedLists lists emptyActivity).cardFlow (moveSourceId act)).isSome) := by
    rw [hcalc, foldl_processAction_flowTotal, hseedflow, Nat.zero_add]
  have hcong : actions.countP (fun act =>
        isMoveAction act &&
          (mapGet (seedLists lists emptyActivity).cardFlow (moveSourceId act)).isSome) =
      actions.countP (fun act =>
        isMoveAction act && lists.any (fun l => l.id = moveSourceId act)) := by
    refine List.countP_congr ?_
    intro x _
    simp only [Bool.and_eq_true]
    constructor
    · rintro ⟨hm, hs⟩
      refine ⟨hm, ?_⟩
      rw [List.any_eq_true]
      rcases List.mem_map.mp ((hkeys _).mp hs) with ⟨l, hl, hid⟩
      exact ⟨l, hl, by simp [hid]⟩
    · rintro ⟨hm, hs⟩
      refine ⟨hm, ?_⟩
      rw [hkeys]
      rw [List.any_eq_true] at hs
      rcases hs with ⟨l, hl, hid⟩
      exact List.mem_map.mpr ⟨l, hl, by simpa using hid⟩
  have h2 : (calculateBoardActivity lists cards actions).cardsMoved =
      actions.countP (fun act => isMoveAction act) := by
    rw [hcalc, foldl_processAction_cardsMoved, hseed,
      (seedLists_frame lists lists emptyActivity).2.1]
    simp [emptyActivity]
  refine ⟨h1.trans hcong, h2, ?_⟩
  rw [h1.trans hcong, h2]
  exact List.countP_mono_left
    (fun x _ h => by simp only [Bool.and_eq_true] at h; exact h.1)

/-- C5 (counterexample): the claim says no nonzero diagonal cell can arise
for *any* event sequence, including an update with equal before/after list
references.  A single self-transition on the fetched list `"a"` writes the
diagonal cell `a → a` with count 1 (`flowMap.set` adds the self key that the
seeding deliberately left out). -/
theorem c5_counterexample :
    mapGet
        ((mapGet (calculateBoardActivity [⟨"a", "List A"⟩] [] [cexSelfMove]).cardFlow
            "a").getD [])
        "a" = some 1 := by
  decide

/-- C5 (amended): as long as every transition event has distinct before- and
after-list ids, the flow table holds no nonzero diagonal cell. -/
theorem c5_no_self_edge_of_distinct_transitions (lists : List TrelloList)
    (cards : List TrelloCard) (actions : List TrelloAction)
    (h : ∀ act ∈ actions, isMoveAction act = true →
      moveSourceId act ≠ moveTargetId act) :
    ∀ src fm n,
      mapGet (calculateBoardActivity lists cards actions).cardFlow src = some fm →
        mapGet fm src = some n → n = 0 := by
  have hcalc : calculateBoardActivity lists cards actions =
      actions.foldl processAction (seedLists lists emptyActivity) := rfl
  rw [hcalc]
  exact foldl_processAction_noSelfEdge actions _ h
    (noSelfEdge_of_allZeroFlow
      (allZeroFlow_seedLists lists lists (by intro e he; simp [emptyActivity] at he)))

/-- Witness for C5's amended theorem: one ordinary move `ghost → b` on a
one-list board. -/
theorem c5_no_self_edge_witness :
    (∀ act ∈ [cexGhostMove], isMoveAction act = true →
      moveSourceId act ≠ moveTargetId act) ∧
    ∀ src fm n,
      mapGet (calculateBoardActivity [⟨"a", "List A"⟩] [] [cexGhostMove]).cardFlow src =
          some fm →
        mapGet fm src = some n → n = 0 :=
  ⟨by decide,
    c5_no_self_edge_of_distinct_transitions [⟨"a", "List A"⟩] [] [cexGhostMove]
      (by decide)⟩

/-- C6 (counterexample): the claim says `getDateRangeForPeriod` fails with a
ValidationError whenever kind or year is absent.  With the year absent and
kind `Q1` it does not fail: it substitutes the current year (2025 here) and
returns a range. -/
theorem c6_counterexample :
    getDateRangeForPeriod ⟨some "Q1", none⟩ 2025 =
      some { start := ⟨2025, 0, 1⟩, endDate := ⟨2025, 3, 1⟩ } := by
  decide

/-- C6 (amended): the absent-kind/absent-year ValidationError is raised by
`generateReport`, before the resolver is invoked — for every environment and
options whose period lacks its kind or year, `generateReport` rejects with
the invalid-period message; `getDateRangeForPeriod` itself, given any known
kind with an absent year, still returns a range. -/
theorem c6_validation_in_generateReport (env : TrelloEnv) (options : ReportOptions)
    (p : ReportPeriod) (hp : options.period = some p)
    (habs : p.type = none ∨ p.year = none) :
    generateReport env options = Except.error invalidPeriodMsg ∧
    ∀ ty : String, (quarterMap ty).isSome ∨ ty = "year" →
      ∀ cy : Int, (getDateRangeForPeriod ⟨some ty, none⟩ cy).isSome := by
  constructor
  · have hcond : ¬ (jsTruthyS p.type ∧ jsTruthyI p.year) := by
      rcases habs with h | h <;> simp [h, jsTruthyS, jsTruthyI]
    simp [generateReport, hp, hcond, throw, throwThe, MonadExceptOf.throw]
  · intro ty hty cy
    rcases hty with h | h
    · cases hq : quarterMap ty with
      | none => rw [hq] at h; simp at h
      | some q =>
        by_cases hy : ty = "year"
        · simp [getDateRangeForPeriod, hy]
        · simp [getDateRangeForPeriod, hy, hq, jsTruthyI]
    · subst h
      simp [getDateRangeForPeriod, jsTruthyI]

/-- Witness for C6's amended theorem: options whose period has no kind. -/
theorem c6_validation_witness :
    generateReport envNoBoards
        { boardId := some "B1", boardName := none,
          period := some ⟨none, some 2023⟩, format := none } =
      Except.error invalidPeriodMsg ∧
    ∀ ty : String, (quarterMap ty).isSome ∨ ty = "year" →
      ∀ cy : Int, (getDateRangeForPeriod ⟨some ty, none⟩ cy).isSome :=
  c6_validation_in_generateReport envNoBoards
    { boardId := some "B1", boardName := none, period := some ⟨none, some 2023⟩,
      format := none }
    ⟨none, some 2023⟩ rfl (Or.inl rfl)

/-- C7: `generateReport` with neither board reference rejects with a
ValidationError message (one of the three validation messages, the
missing-board one when period and format are well-formed), and with a
(truthy) board name matching no fetched board case-insensitively it rejects
with the not-found message; being `Except.error`, no report bundle is
returned in either case. -/
theorem c7_report_errors (env : TrelloEnv) (options : ReportOptions) :
    (jsTruthyS options.boardId = false → jsTruthyS options.boardName = false →
      ∃ m, generateReport env options = Except.error m ∧
        (m = invalidPeriodMsg ∨ m = invalidFormatMsg ∨ m = missingBoardMsg)) ∧
    (∀ (p : ReportPeriod) (n : String) (boards : List TrelloBoard),
      options.period = some p →
      jsTruthyS p.type = true → jsTruthyI p.year = true →
      (options.format = none ∨ options.format = some "summary" ∨
        options.format = some "full") →
      jsTruthyS options.boardId = false →
      options.boardName = some n → n ≠ "" →
      env.getBoards = Except.ok boards →
      (∀ b ∈ boards, strIncludes (lowerStr b.name) (lowerStr n) = false) →
      generateReport env options = Except.error (boardNotFoundMsg n)) := by
  constructor
  · intro h1 h2
    unfold generateReport
    cases hper : options.period with
    | none =>
      exact ⟨invalidPeriodMsg, by simp [throw, throwThe, MonadExceptOf.throw], Or.inl rfl⟩
    | some p =>
      by_cases hc1 : jsTruthyS p.type ∧ jsTruthyI p.year
      · by_cases hc2 : options.format.getD "full" ≠ "summary" ∧
            options.format.getD "full" ≠ "full"
        · exact ⟨invalidFormatMsg,
            by simp [hc1, hc2, throw, throwThe, MonadExceptOf.throw], Or.inr (Or.inl rfl)⟩
        · refine ⟨missingBoardMsg, ?_, Or.inr (Or.inr rfl)⟩
          simp [hc1, hc2, h1, h2, throw, throwThe, MonadExceptOf.throw]
      · exact ⟨invalidPeriodMsg,
          by simp [hc1, throw, throwThe, MonadExceptOf.throw], Or.inl rfl⟩
  · intro p n boards hper ht hy hfmt hbid hbn hn hgb hmatch
    have hfind :
        boards.find? (fun board => strIncludes (lowerStr board.name) (lowerStr n)) =
          none := List.find?_eq_none.mpr (by intro x hx; simp [hmatch x hx])
    have hfmt' : ¬ (options.format.getD "full" ≠ "summary" ∧
        options.format.getD "full" ≠ "full") := by
      rcases hfmt with h | h | h <;> simp [h]
    have hbnT : jsTruthyS options.boardName = true := by simp [hbn, jsTruthyS, hn]
    simp [generateReport, hper, ht, hy, hfmt', hbid, hbnT, hbn, findBoardByName, hgb,
      hfind, boardNotFoundMsg, throw, throwThe, MonadExceptOf.throw, bind, Except.bind,
      pure, Except.pure]
    intro hcontra
    simp [jsTruthyS, hn] at hcontra

/-- Witness for C7: the empty-board environment with (a) no board reference
at all and (b) the unmatched name "ghost board". -/
theorem c7_report_errors_witness :
    (∃ m, generateReport envNoBoards
          { boardId := none, boardName := none,
            period := some ⟨some "Q1", some 2023⟩, format := none } =
        Except.error m ∧
      (m = invalidPeriodMsg ∨ m = invalidFormatMsg ∨ m = missingBoardMsg)) ∧
    generateReport envNoBoards
        { boardId := none, boardName := some "ghost board",
          period := some ⟨some "Q1", some 2023⟩, format := none } =
      Except.error (boardNotFoundMsg "ghost board") :=
  ⟨(c7_report_errors envNoBoards
      { boardId := none, boardName := none, period := some ⟨some "Q1", some 2023⟩,
        format := none }).1 (by decide) (by decide),
    (c7_report_errors envNoBoards
      { boardId := none, boardName := some "ghost board",
        period := some ⟨some "Q1", some 2023⟩, format := none }).2
      ⟨some "Q1", some 2023⟩ "ghost board" [] rfl (by decide) (by decide)
      (Or.inl rfl) (by decide) rfl (by decide) rfl (by intro b hb; cases hb)⟩

/-- C10: `calculateBoardActivity` leaves its three input collections
unchanged and fills a freshly built aggregate.  In the state-passing form of
the function (`calculateBoardActivityS`, whose every write targets the
activity slot), running the body maps a state to the same state with only
the `activity` field replaced — by a value depending only on the inputs, not
on any pre-existing activity (the fresh literal of lines 85–99 discards
it). -/
theorem c10_inputs_frame (s : CalcState) :
    calculateBoardActivityS s =
      { s with activity := calculateBoardActivity s.lists s.cards s.actions } := rfl

/-- C8: with pairwise-distinct card ids, `findTopCards` with limit 15
returns at most 15 cards, at most as many cards as there are distinct
event-referenced card ids (the entries of the per-card count map), in
descending order of per-card action count, and with ties kept in original
fetch order: two returned cards with equal counts occur in the result in the
order in which they occur in `cards` (stability of the sort). -/
theorem c8_top_cards (cards : List TrelloCard) (actions : List TrelloAction)
    (h : (cards.map TrelloCard.id).Nodup) :
    (findTopCards cards actions 15).length ≤ 15 ∧
    (findTopCards cards actions 15).length ≤ (countActionsPerCard actions).length ∧
    (findTopCards cards actions 15).Pairwise (fun a b =>
      (mapGet (countActionsPerCard actions) b.id).getD 0 ≤
        (mapGet (countActionsPerCard actions) a.id).getD 0) ∧
    (findTopCards cards actions 15).Pairwise (fun a b =>
      (mapGet (countActionsPerCard actions) a.id).getD 0 =
        (mapGet (countActionsPerCard actions) b.id).getD 0 → [a, b].Sublist cards) := by
  set counts := countActionsPerCard actions with hc
  set le := fun (a b : TrelloCard) =>
    decide ((mapGet counts b.id).getD 0 ≤ (mapGet counts a.id).getD 0) with hle
  set filtered := cards.filter (fun card => (mapGet counts card.id).isSome) with hf
  have hdef : findTopCards cards actions 15 = (filtered.mergeSort le).take 15 := rfl
  have htrans : ∀ a b c : TrelloCard, le a b = true → le b c = true → le a c = true := by
    intro a b c
    simp only [hle, decide_eq_true_eq]
    omega
  have htotal : ∀ a b : TrelloCard, (le a b || le b a) = true := by
    intro a b
    simp only [hle, Bool.or_eq_true, decide_eq_true_eq]
    omega
  have hperm : (filtered.mergeSort le).Perm filtered := List.mergeSort_perm filtered le
  have hcardsNodup : cards.Nodup := h.of_map
  have hfilteredNodup : filtered.Nodup := (List.filter_sublist cards).nodup hcardsNodup
  have hsortedNodup : (filtered.mergeSort le).Nodup := hperm.symm.nodup hfilteredNodup
  refine ⟨?_, ?_, ?_, ?_⟩
  · rw [hdef]
    exact List.length_take_le _ _
  · rw [hdef]
    have h1 : ((filtered.mergeSort le).take 15).length ≤ (filtered.mergeSort le).length :=
      (List.take_sublist _ _).length_le
    have hidsNodup : (filtered.map TrelloCard.id).Nodup :=
      (((List.filter_sublist cards).map TrelloCard.id)).nodup h
    have hsub : ∀ x ∈ filtered.map TrelloCard.id, x ∈ counts.map Prod.fst := by
      intro x hx
      rcases List.mem_map.mp hx with ⟨c, hcmem, rfl⟩
      exact (isSome_mapGet_iff_mem_keys counts c.id).mp (List.mem_filter.mp hcmem).2
    have h2 : filtered.length ≤ counts.length := by
      calc filtered.length = (filtered.map TrelloCard.id).length :=
            (List.length_map _ _).symm
        _ = (filtered.map TrelloCard.id).toFinset.card :=
            (List.toFinset_card_of_nodup hidsNodup).symm
        _ ≤ (counts.map Prod.fst).toFinset.card :=
            Finset.card_le_card
              (fun x hx => List.mem_toFinset.mpr (hsub x (List.mem_toFinset.mp hx)))
        _ ≤ (counts.map Prod.fst).length := List.toFinset_card_le _
        _ = counts.length := List.length_map _ _
    exact le_trans h1 (le_trans (le_of_eq hperm.length_eq) h2)
  · rw [hdef]
    have hs := List.sorted_mergeSort htrans htotal filtered
    exact (hs.take).imp (fun hab => by simpa [hle, decide_eq_true_eq] using hab)
  · rw [hdef]
    rw [List.pairwise_iff_forall_sublist]
    intro a b hab heq
    have hab' : [a, b].Sublist (filtered.mergeSort le) :=
      hab.trans (List.take_sublist _ _)
    have hmemA : a ∈ filtered := (List.mem_mergeSort).mp (List.Sublist.mem (by simp) hab')
    have hmemB : b ∈ filtered := (List.mem_mergeSort).mp (List.Sublist.mem (by simp) hab')
    have hne : a ≠ b := by
      have hnd : ([a, b] : List TrelloCard).Nodup := hab'.nodup hsortedNodup
      simp [List.nodup_cons] at hnd
      exact hnd
    rcases pair_sublist_or hmemA hmemB hne with hfab | hfba
    · exact hfab.trans (List.filter_sublist cards)
    · exfalso
      have hpair : List.Pairwise (fun x y => le x y = true) [b, a] := by
        simp [List.pairwise_cons, hle, decide_eq_true_eq, heq]
      have hba : [b, a].Sublist (filtered.mergeSort le) :=
        List.sublist_mergeSort htrans htotal hpair hfba
      exact not_pair_sublist_swap hsortedNodup hne hab' hba

-- C9 development


/-- C9: when no card repeats a label id, `groupCardsByLabel` maps every
fetched label with zero matching cards to a present-but-empty group, and each
card appears in exactly as many groups as it has label ids (the number of map
entries whose group contains the card equals the card's label count). -/
theorem c9_label_grouping (cards : List TrelloCard) (labels : List TrelloLabel)
    (h : ∀ c ∈ cards, c.idLabels.Nodup) :
    (∀ label ∈ labels, (∀ c ∈ cards, label.id ∉ c.idLabels) →
      mapGet (groupCardsByLabel cards labels) label.id = some []) ∧
    (∀ c ∈ cards,
      (groupCardsByLabel cards labels).countP (fun e => decide (c ∈ e.2)) =
        c.idLabels.length) := by
  have hgroup : groupCardsByLabel cards labels =
      cards.foldl
        (fun m card =>
          card.idLabels.foldl
            (fun m labelId => mapSet m labelId ((mapGet m labelId).getD [] ++ [card])) m)
        (labels.foldl (fun m label => mapSet m label.id []) []) := rfl
  constructor
  · intro label hlabel hno
    rw [hgroup, mapGet_outer_not_mem cards _ label.id hno]
    exact labelSeed_value labels [] label.id (List.mem_map.mpr ⟨label, hlabel, rfl⟩)
  · intro c hc
    have hkeysNodup : ((groupCardsByLabel cards labels).map Prod.fst).Nodup := by
      rw [hgroup]
      exact nodupKeys_groupCards_fold cards _ (nodupKeys_labelSeed labels [] (by simp))
    have hmemchar : ∀ k c',
        c' ∈ (mapGet (groupCardsByLabel cards labels) k).getD [] ↔
          c' ∈ cards ∧ k ∈ c'.idLabels := by
      intro k c'
      rw [hgroup, mem_outer_getD]
      have hseedvals : ∀ p ∈ labels.foldl (fun m label => mapSet m label.id [])
          ([] : List (String × List TrelloCard)), p.2 = ([] : List TrelloCard) :=
        labelSeed_vals_empty labels (by intro p hp; cases hp)
      have hinit : c' ∈
          (mapGet (labels.foldl (fun m label => mapSet m label.id []) []) k).getD [] ↔
            False := by
        constructor
        · intro hmem
          cases hg : mapGet (labels.foldl (fun m label => mapSet m label.id []) []) k with
          | none => rw [hg] at hmem; simp at hmem
          | some g =>
            rw [hg] at hmem
            have hval := hseedvals (k, g) (mem_of_mapGet_eq_some hg)
            simp only at hval
            rw [hval] at hmem
            simp at hmem
        · intro hf
          exact hf.elim
      rw [hinit]
      tauto
    have hstep1 : (groupCardsByLabel cards labels).countP (fun e => decide (c ∈ e.2)) =
        (groupCardsByLabel cards labels).countP (fun e => decide (e.1 ∈ c.idLabels)) := by
      refine List.countP_congr ?_
      intro e he
      simp only [decide_eq_true_eq]
      have hval : mapGet (groupCardsByLabel cards labels) e.1 = some e.2 :=
        mapGet_of_mem_nodupKeys hkeysNodup he
      have hchar := hmemchar e.1 c
      rw [hval] at hchar
      simp only [Option.getD_some] at hchar
      rw [hchar]
      exact ⟨fun hh => hh.2, fun hh => ⟨hc, hh⟩⟩
    have hstep2 : (groupCardsByLabel cards labels).countP
          (fun e => decide (e.1 ∈ c.idLabels)) =
        ((groupCardsByLabel cards labels).map Prod.fst).countP
          (fun k => decide (k ∈ c.idLabels)) := by
      rw [List.countP_map]
      rfl
    have hcov : ∀ x ∈ c.idLabels, x ∈ (groupCardsByLabel cards labels).map Prod.fst := by
      intro x hx
      rw [← isSome_mapGet_iff_mem_keys, groupCardsByLabel, groupCards_fold_keys,
        labelSeed_keys]
      exact Or.inr ⟨c, hc, hx⟩
    rw [hstep1, hstep2]
    exact countP_keys_eq_length _ _ hkeysNodup (h c hc) hcov

/-- A card with id `"c1"` (referenced by `cexGhostMove`). -/
def wCardA : TrelloCard :=
  { id := "c1", name := "Card 1", desc := "", idList := "a", idMembers := [],
    idLabels := [], due := none, dueComplete := false, url := "" }

/-- A second card, unreferenced by any event. -/
def wCardB : TrelloCard :=
  { id := "c2", name := "Card 2", desc := "", idList := "a", idMembers := [],
    idLabels := [], due := none, dueComplete := false, url := "" }

/-- Witness for C8: two cards with distinct ids and one referencing event. -/
theorem c8_top_cards_witness :
    ([wCardA, wCardB].map TrelloCard.id).Nodup ∧
    ((findTopCards [wCardA, wCardB] [cexGhostMove] 15).length ≤ 15 ∧
      (findTopCards [wCardA, wCardB] [cexGhostMove] 15).length ≤
        (countActionsPerCard [cexGhostMove]).length ∧
      (findTopCards [wCardA, wCardB] [cexGhostMove] 15).Pairwise (fun a b =>
        (mapGet (countActionsPerCard [cexGhostMove]) b.id).getD 0 ≤
          (mapGet (countActionsPerCard [cexGhostMove]) a.id).getD 0) ∧
      (findTopCards [wCardA, wCardB] [cexGhostMove] 15).Pairwise (fun a b =>
        (mapGet (countActionsPerCard [cexGhostMove]) a.id).getD 0 =
          (mapGet (countActionsPerCard [cexGhostMove]) b.id).getD 0 →
          [a, b].Sublist [wCardA, wCardB])) :=
  ⟨by decide, c8_top_cards [wCardA, wCardB] [cexGhostMove] (by decide)⟩

/-- A label fetched for the witness board. -/
def wLabel : TrelloLabel := { id := "lab1", name := "Bug", color := "red" }

/-- Witness for C9: one card carrying only the unfetched label id `"gl"`,
one fetched label with no matching cards. -/
theorem c9_label_grouping_witness :
    (∀ c ∈ [cexGhostLabelCard], c.idLabels.Nodup) ∧
    ((∀ label ∈ [wLabel], (∀ c ∈ [cexGhostLabelCard], label.id ∉ c.idLabels) →
        mapGet (groupCardsByLabel [cexGhostLabelCard] [wLabel]) label.id = some []) ∧
      (∀ c ∈ [cexGhostLabelCard],
        (groupCardsByLabel [cexGhostLabelCard] [wLabel]).countP
            (fun e => decide (c ∈ e.2)) =
          c.idLabels.length)) :=
  ⟨by decide, c9_label_grouping [cexGhostLabelCard] [wLabel] (by decide)⟩

end Trello
